import Mathlib

/-!
Verification development for the Go time service in
`internal/time/service.go` and `internal/time/types.go` of
`mcp-server-time`.

The service is embedded shallowly:

* instants (`time.Time`) become `GoTime`: an unbounded integer count of
  nanoseconds since the Unix epoch together with a structural `Zone`
  (Go's `*time.Location` is modelled as a named zone given by a base
  offset and a sorted list of offset transitions);
* the platform pieces the service calls into (the IANA database,
  `time.Date`, `time.Time.In`, `AddDate`, the RFC3339 formatter and
  parser of the `time` package, and `strconv`) are modelled from their
  documented behaviour, since they are external to the repository;
  freeform Go layout rendering/parsing, which no claim depends on, is
  kept abstract as two function fields of `Platform`;
* the service functions (`GetCurrentTime`, `FormatTime`, `ParseTime`,
  `GetTimezoneInfo`, `ConvertTimezone`, `IsFormatSupported`,
  `formatOffset`, `isDST`, `getNextDSTTransition`, ...) are translated
  statement by statement from `service.go`.
-/

namespace MCPTime

/-! ## Civil calendar

Go's `time` package interprets instants in the proleptic Gregorian
calendar.  `daysFromCivil` is the standard days-since-epoch formula;
`civilFromDays` is its inverse, written with exact Euclidean division
steps (century and year extraction within a 400-year era).  Integer
division `/` and `%` on `Int` below are Euclidean (`Int.ediv`/`emod`),
which for the positive divisors used here coincides with floor
division. -/

/-- Convert a day count relative to 1970-01-01 into a proleptic
Gregorian `(year, month, day)` triple. -/
def civilFromDays (z : Int) : Int × Int × Int :=
  let g := z + 719468
  let era := g / 146097
  let doe := g % 146097
  let p2 := 4 * doe + 3
  let c := p2 / 146097
  let nc := p2 % 146097 / 4
  let p1 := 4 * nc + 3
  let zc := p1 / 1461
  let ny := p1 % 1461 / 4
  let yoe := 100 * c + zc
  let mp := (5 * ny + 2) / 153
  let d := ny - (153 * mp + 2) / 5 + 1
  let m := if mp < 10 then mp + 3 else mp - 9
  let y := yoe + era * 400 + (if m ≤ 2 then 1 else 0)
  (y, m, d)

/-- Convert a proleptic Gregorian date into days relative to
1970-01-01.  `m` must be in `[1, 12]`; `d` may spill past the length of
the month (as in Go's `time.Date`, which normalizes only the month). -/
def daysFromCivil (y m d : Int) : Int :=
  let y' := y - (if m ≤ 2 then 1 else 0)
  let era := y' / 400
  let yoe := y' - era * 400
  let mp := (m + 9) % 12
  let doy := (153 * mp + 2) / 5 + d - 1
  let doe := yoe * 365 + yoe / 4 - yoe / 100 + doy
  era * 146097 + doe - 719468

/-! ## Decimal digits

Rendering and reading of decimal numbers, modelling `strconv.FormatInt`
/ `strconv.ParseInt` and the fixed-width numeric fields of Go's
RFC 3339 formatting and parsing. -/

/-- The character for a single decimal digit. -/
def decDigit (n : Nat) : Char := Char.ofNat (48 + n)

/-- Fuel-driven worker for `revDecDigits` (structural recursion on the
fuel keeps the function kernel-reducible). -/
def revDecDigitsF : Nat → Nat → List Char
  | 0, _ => []
  | f + 1, n =>
    if n < 10 then [decDigit n]
    else decDigit (n % 10) :: revDecDigitsF f (n / 10)

/-- Decimal digits of `n`, least significant first. -/
def revDecDigits (n : Nat) : List Char := revDecDigitsF (n + 1) n

/-- Decimal digits of `n`, most significant first (no padding). -/
def natDecChars (n : Nat) : List Char := (revDecDigits n).reverse

/-- Decimal rendering of an integer, modelling
`strconv.FormatInt(v, 10)`. -/
def intDecChars (v : Int) : List Char :=
  if v < 0 then '-' :: natDecChars v.natAbs else natDecChars v.natAbs

/-- String form of `intDecChars`. -/
def intDecString (v : Int) : String := String.mk (intDecChars v)

/-- Numeric value of a decimal digit character, `none` on anything
else. -/
def charDigit (c : Char) : Option Nat :=
  if 48 ≤ c.toNat ∧ c.toNat ≤ 57 then some (c.toNat - 48) else none

/-- Fold a list of digit characters into a number, failing on a
non-digit. -/
def valFold (acc : Nat) : List Char → Option Nat
  | [] => some acc
  | c :: cs =>
    match charDigit c with
    | some d => valFold (acc * 10 + d) cs
    | none => none

/-- Read a whole list of digit characters as a number, requiring at
least one digit. -/
def digitsVal : List Char → Option Nat
  | [] => none
  | l => valFold 0 l

/-- Decimal integer parsing on characters with the 64-bit range check of
`strconv.ParseInt(s, 10, 64)`: an optional sign followed by at least
one digit, rejecting values outside `[-2^63, 2^63-1]`. -/
def parseInt64Chars : List Char → Option Int
  | [] => none
  | c :: cs =>
    if c = '-' then
      (digitsVal cs).bind fun n =>
        if n ≤ 9223372036854775808 then some (-(n : Int)) else none
    else if c = '+' then
      (digitsVal cs).bind fun n =>
        if n ≤ 9223372036854775807 then some (n : Int) else none
    else
      (digitsVal (c :: cs)).bind fun n =>
        if n ≤ 9223372036854775807 then some (n : Int) else none

/-- String form of `parseInt64Chars`. -/
def parseInt64 (s : String) : Option Int := parseInt64Chars s.data

/-- Fixed-width decimal field, most significant digit first, as used in
the numeric fields of Go's RFC 3339 formatting (valid for
`n < 10 ^ w`). -/
def fixedDigits : Nat → Nat → List Char
  | 0, _ => []
  | w + 1, n => decDigit (n / 10 ^ w) :: fixedDigits w (n % 10 ^ w)

/-- Read exactly `w` digit characters, most significant first. -/
def readFixed : Nat → Nat → List Char → Option (Nat × List Char)
  | 0, acc, l => some (acc, l)
  | _ + 1, _, [] => none
  | w + 1, acc, c :: cs =>
    match charDigit c with
    | some d => readFixed w (acc * 10 + d) cs
    | none => none

/-- Expect one specific character. -/
def expectChar (c : Char) : List Char → Option (List Char)
  | [] => none
  | x :: xs => if x = c then some xs else none

/-- Two-digit zero-padded field as produced by `fmt.Sprintf("%02d", n)`:
at least two characters, more when `n ≥ 100`. -/
def pad2min (n : Nat) : List Char :=
  if n < 10 then '0' :: [decDigit n] else natDecChars n

/-! ## Zones and instants

`Zone` models Go's `*time.Location` structurally: a name, a base
abbreviation/offset and an ascending list of offset transitions.
`GoTime` models `time.Time` as unbounded nanoseconds since the Unix
epoch plus a zone.  Go compares `t.Location() == time.UTC` by pointer;
here the comparison is structural equality with `utcZone`, which agrees
with Go on every value the service constructs. -/

structure ZoneTrans where
  start : Int
  offset : Int
  abbr : String
deriving DecidableEq

structure Zone where
  name : String
  baseAbbr : String
  baseOffset : Int
  transitions : List ZoneTrans
deriving DecidableEq

/-- The `time.UTC` location. -/
def utcZone : Zone := ⟨"UTC", "UTC", 0, []⟩

/-- The fixed-offset location produced by parsing a numeric RFC 3339
offset, `time.FixedZone("", off)`. -/
def fixedZone (off : Int) : Zone := ⟨"", "", off, []⟩

/-- The active zone segment at an instant: abbreviation, offset, and the
segment's bounds (`none` meaning unbounded). -/
structure ZoneSeg where
  abbr : String
  offset : Int
  segStart : Option Int
  segEnd : Option Int
deriving DecidableEq

def zoneLookupAux (sec : Int) : String → Int → Option Int → List ZoneTrans → ZoneSeg
  | abbr, off, st, [] => ⟨abbr, off, st, none⟩
  | abbr, off, st, tr :: rest =>
    if sec < tr.start then ⟨abbr, off, st, some tr.start⟩
    else zoneLookupAux sec tr.abbr tr.offset (some tr.start) rest

/-- Model of `Location.lookup`: the zone segment containing `sec`. -/
def zoneLookup (z : Zone) (sec : Int) : ZoneSeg :=
  zoneLookupAux sec z.baseAbbr z.baseOffset none z.transitions

def offsetAt (z : Zone) (sec : Int) : Int := (zoneLookup z sec).offset

def abbrAt (z : Zone) (sec : Int) : String := (zoneLookup z sec).abbr

/-- Model of `time.Time`. -/
structure GoTime where
  nanos : Int
  loc : Zone
deriving DecidableEq

/-- `t.Unix()`: seconds since epoch (floor). -/
def unixSec (t : GoTime) : Int := t.nanos / 1000000000

/-- `t.Nanosecond()`: the sub-second part, in `[0, 1e9)`. -/
def goNanosecond (t : GoTime) : Int := t.nanos % 1000000000

def goUnixMilli (t : GoTime) : Int := t.nanos / 1000000

def goUnixMicro (t : GoTime) : Int := t.nanos / 1000

def goUnixNano (t : GoTime) : Int := t.nanos

/-- `t.In(loc)`: same instant, new zone. -/
def goIn (t : GoTime) (loc : Zone) : GoTime := ⟨t.nanos, loc⟩

/-- Wall-clock seconds since epoch in `t`'s own zone. -/
def wallSec (t : GoTime) : Int := unixSec t + offsetAt t.loc (unixSec t)

def goYear (t : GoTime) : Int := (civilFromDays (wallSec t / 86400)).1

def goMonth (t : GoTime) : Int := (civilFromDays (wallSec t / 86400)).2.1

def goDay (t : GoTime) : Int := (civilFromDays (wallSec t / 86400)).2.2

def goHour (t : GoTime) : Int := wallSec t % 86400 / 3600

def goMinute (t : GoTime) : Int := wallSec t % 86400 % 3600 / 60

def goSecond (t : GoTime) : Int := wallSec t % 86400 % 60

def beforeStart (utc : Int) : Option Int → Bool
  | some st => decide (utc < st)
  | none => false

def atOrAfterEnd (utc : Int) : Option Int → Bool
  | some en => decide (en ≤ utc)
  | none => false

/-- Model of `time.Date(year, month, day, hour, minute, sec, nsec, loc)`:
normalize the fields, compute epoch seconds as if the wall clock were
UTC, then subtract the zone offset, re-resolving the offset when the
adjusted instant falls outside the segment found in the first lookup
(exactly Go's two-step adjustment). -/
def goDate (year month day hour minute sec nsec : Int) (loc : Zone) : GoTime :=
  let ns := nsec % 1000000000
  let yN := year + (month - 1) / 12
  let mN := (month - 1) % 12 + 1
  let wall := daysFromCivil yN mN day * 86400 + hour * 3600 + minute * 60 + sec
    + nsec / 1000000000
  let seg := zoneLookup loc wall
  let unix :=
    if seg.offset = 0 then wall
    else
      let utc := wall - seg.offset
      let off1 :=
        if beforeStart utc seg.segStart then (zoneLookup loc (seg.segStart.getD 0 - 1)).offset
        else if atOrAfterEnd utc seg.segEnd then (zoneLookup loc (seg.segEnd.getD 0)).offset
        else seg.offset
      wall - off1
  ⟨unix * 1000000000 + ns, loc⟩

/-- Model of `t.AddDate(years, months, days)`. -/
def addDate (t : GoTime) (years months days : Int) : GoTime :=
  goDate (goYear t + years) (goMonth t + months) (goDay t + days)
    (goHour t) (goMinute t) (goSecond t) (goNanosecond t) t.loc

/-! ## RFC 3339 formatting and parsing

Model of `t.Format(time.RFC3339)` / `t.Format(time.RFC3339Nano)` and of
`time.Parse` with either layout.  The year field is rendered with four
digits (the RFC 3339 range, years 0–9999, which is where the claims
about these formats are stated); the numeric offset is rendered as
`±hh:mm`, with `Z` for offset zero, as Go's `Z07:00` layout chunk
does. -/

def rfc3339ZoneChars (off : Int) : List Char :=
  if off = 0 then ['Z']
  else
    let a := off.natAbs
    (if off < 0 then '-' else '+') :: (fixedDigits 2 (a / 3600) ++ (':' :: fixedDigits 2 (a % 3600 / 60)))

def rfc3339BaseChars (t : GoTime) : List Char :=
  let w := wallSec t
  let ymd := civilFromDays (w / 86400)
  let sod := w % 86400
  fixedDigits 4 ymd.1.toNat ++ ('-' :: (fixedDigits 2 ymd.2.1.toNat
    ++ ('-' :: (fixedDigits 2 ymd.2.2.toNat
    ++ ('T' :: (fixedDigits 2 (sod / 3600).toNat
    ++ (':' :: (fixedDigits 2 (sod % 3600 / 60).toNat
    ++ (':' :: fixedDigits 2 (sod % 60).toNat)))))))))

def formatRFC3339 (t : GoTime) : String :=
  String.mk (rfc3339BaseChars t ++ rfc3339ZoneChars (offsetAt t.loc (unixSec t)))

def trimZerosRight (l : List Char) : List Char := (l.reverse.dropWhile (· == '0')).reverse

/-- Fractional-second field of `RFC3339Nano`: trailing zeros removed,
omitted entirely when zero. -/
def fracChars (ns : Nat) : List Char :=
  if ns = 0 then [] else '.' :: trimZerosRight (fixedDigits 9 ns)

def formatRFC3339Nano (t : GoTime) : String :=
  String.mk (rfc3339BaseChars t ++ fracChars (goNanosecond t).toNat
    ++ rfc3339ZoneChars (offsetAt t.loc (unixSec t)))

/-- Longest leading run of digit characters. -/
def takeDigits : List Char → List Char × List Char
  | [] => ([], [])
  | c :: cs =>
    if (charDigit c).isSome then
      let p := takeDigits cs
      (c :: p.1, p.2)
    else ([], c :: cs)

/-- Parse the zone suffix: `Z` (yielding `none`) or `±hh:mm` (yielding
the signed offset in seconds). -/
def parseZonePart : List Char → Option (Option Int × List Char)
  | [] => none
  | c :: cs =>
    if c = 'Z' then some (none, cs)
    else if c = '+' ∨ c = '-' then
      match readFixed 2 0 cs with
      | some (hh, cs1) =>
        match expectChar ':' cs1 with
        | some cs2 =>
          match readFixed 2 0 cs2 with
          | some (mm, cs3) =>
            some (some ((if c = '-' then (-1 : Int) else 1) * ((hh : Int) * 3600 + (mm : Int) * 60)), cs3)
          | none => none
        | none => none
      | none => none
    else none

/-- Parse the `YYYY-MM-DD` part. -/
def parseDatePart (cs : List Char) : Option (Nat × Nat × Nat × List Char) := do
  let (y, r1) ← readFixed 4 0 cs
  let r2 ← expectChar '-' r1
  let (mo, r3) ← readFixed 2 0 r2
  let r4 ← expectChar '-' r3
  let (d, r5) ← readFixed 2 0 r4
  some (y, mo, d, r5)

/-- Parse the `Thh:mm:ss` part. -/
def parseClockPart (cs : List Char) : Option (Nat × Nat × Nat × List Char) := do
  let r6 ← expectChar 'T' cs
  let (h, r7) ← readFixed 2 0 r6
  let r8 ← expectChar ':' r7
  let (mi, r9) ← readFixed 2 0 r8
  let r10 ← expectChar ':' r9
  let (s, r11) ← readFixed 2 0 r10
  some (h, mi, s, r11)

/-- Parse an optional fractional-second field (1 to 9 digits), yielding
nanoseconds. -/
def parseFracPart : List Char → Option (Nat × List Char)
  | '.' :: rest =>
    let p := takeDigits rest
    if 1 ≤ p.1.length ∧ p.1.length ≤ 9 then
      match digitsVal p.1 with
      | some v => some (v * 10 ^ (9 - p.1.length), p.2)
      | none => none
    else none
  | cs => some (0, cs)

/-- Model of `time.Parse` with the `RFC3339`/`RFC3339Nano` layouts (both
accept an optional fractional-second field when parsing).  A `Z` suffix
yields the `time.UTC` location; a numeric offset yields the
corresponding fixed zone, with the instant adjusted by the offset. -/
def parseRFC3339Chars (cs : List Char) : Option GoTime := do
  let (y, mo, d, r5) ← parseDatePart cs
  let (h, mi, s, r11) ← parseClockPart r5
  let (ns, r12) ← parseFracPart r11
  let (zoff, r13) ← parseZonePart r12
  if r13 = [] ∧ 1 ≤ mo ∧ mo ≤ 12 ∧ 1 ≤ d ∧ d ≤ 31 ∧ h ≤ 23 ∧ mi ≤ 59 ∧ s ≤ 59 then
    let off : Int := zoff.getD 0
    let secs : Int := daysFromCivil (y : Int) (mo : Int) (d : Int) * 86400
      + (h : Int) * 3600 + (mi : Int) * 60 + (s : Int) - off
    some ⟨secs * 1000000000 + (ns : Int),
      match zoff with
      | none => utcZone
      | some o => fixedZone o⟩
  else none

def parseRFC3339 (s : String) : Option GoTime := parseRFC3339Chars s.data

/-- Model of `fmt.Sprintf("%s%02d:%02d", sign, hours, minutes)` as used
by the service's `formatOffset` helper. -/
def formatOffset (offsetSeconds : Int) : String :=
  if offsetSeconds = 0 then "+00:00"
  else
    let sign : Char := if offsetSeconds < 0 then '-' else '+'
    let a := offsetSeconds.natAbs
    String.mk (sign :: (pad2min (a / 3600) ++ ':' :: pad2min (a % 3600 / 60)))

/-! ## Service embedding

Translation of `timeService` from `internal/time/service.go`.  The
configuration captured at construction becomes `Config`; the ambient
platform (timezone database, the process-local zone used by
`time.Unix`, and the freeform Go layout engine, which no claim inspects)
becomes `Platform`.  `time.Now()` becomes an explicit `now` argument. -/

structure Config where
  defaultTimezone : String
  defaultFormat : String
  supportedFormats : List String

structure Platform where
  db : List Zone
  localZone : Zone
  layoutFormat : GoTime → String → String
  layoutParse : String → String → Option GoTime

/-- Model of `time.LoadLocation`: `""` and `"UTC"` give UTC, `"Local"`
gives the process zone, anything else is looked up in the database. -/
def loadLocation (plat : Platform) (name : String) : Option Zone :=
  if name = "" ∨ name = "UTC" then some utcZone
  else if name = "Local" then some plat.localZone
  else plat.db.find? (fun z => z.name == name)

/-- The three error kinds of the service (plus the two auxiliary
timestamp errors of `FormatTime`), keyed by the `fmt.Errorf` messages in
`service.go`. -/
inductive TimeError where
  | invalidTimezone (tz : String)
  | invalidDestinationTimezone (tz : String)
  | invalidSourceTimezone (tz : String)
  | unsupportedFormat (format : String) (supported : List String)
  | parseFailure (input : String) (format : String)
  | parseTimestampFailure (input : String)
deriving DecidableEq

structure GetTimeResult where
  formattedTime : String
  timezone : String
  format : String
  unixTimestamp : Int
deriving DecidableEq

structure FormatTimeResult where
  formattedTime : String
  timezone : String
  format : String
  unixTimestamp : Int
deriving DecidableEq

structure ParseTimeResult where
  unixTimestamp : Int
  rfc3339 : String
  timezone : String
  isDST : Bool
deriving DecidableEq

structure DSTTransitionInfo where
  nextTransition : GoTime
  transitionType : String
  offsetChange : Int
deriving DecidableEq

structure TimezoneInfo where
  name : String
  abbreviation : String
  offset : String
  offsetSeconds : Int
  isDST : Bool
  dstTransition : Option DSTTransitionInfo
deriving DecidableEq

structure GetTimeInput where
  timezone : String
  format : String

/-- The `interface{}` timestamp accepted by `FormatTime`, as a tagged
variant: a string, an integer count of seconds (covering the `int` and
`int64` cases), or a `time.Time` value. -/
inductive TimestampValue where
  | str (s : String)
  | intVal (v : Int)
  | timeVal (t : GoTime)
deriving DecidableEq

structure FormatTimeInput where
  timestamp : TimestampValue
  format : String
  timezone : String

structure ParseTimeInput where
  timeString : String
  format : String
  timezone : String

structure TimezoneInfoInput where
  timezone : String
  referenceTime : Option GoTime

/-- Model of `IsFormatSupported`: membership in the configured list. -/
def IsFormatSupported (cfg : Config) (format : String) : Bool :=
  cfg.supportedFormats.contains format

/-- Model of `GetSupportedFormats`. -/
def GetSupportedFormats (cfg : Config) : List String := cfg.supportedFormats

/-- Model of `formatTimeInternal`. -/
def formatTimeInternal (cfg : Config) (plat : Platform) (t : GoTime) (format0 : String) :
    Except TimeError String :=
  let format := if format0 = "" then cfg.defaultFormat else format0
  if IsFormatSupported cfg format then
    Except.ok
      (if format = "RFC3339" then formatRFC3339 t
       else if format = "RFC3339Nano" then formatRFC3339Nano t
       else if format = "Unix" then intDecString (unixSec t)
       else if format = "UnixMilli" then intDecString (goUnixMilli t)
       else if format = "UnixMicro" then intDecString (goUnixMicro t)
       else if format = "UnixNano" then intDecString (goUnixNano t)
       else plat.layoutFormat t format)
  else Except.error (.unsupportedFormat format cfg.supportedFormats)

/-- Model of `parseTimeInternal`.  The `Unix*` branches build their
result with `time.Unix`/`time.UnixMilli`/`time.UnixMicro`, whose zone is
the process-local zone. -/
def parseTimeInternal (cfg : Config) (plat : Platform) (timeStr format0 : String) :
    Except TimeError GoTime :=
  let format := if format0 = "" then cfg.defaultFormat else format0
  let r : Option GoTime :=
    if format = "RFC3339" then parseRFC3339 timeStr
    else if format = "RFC3339Nano" then parseRFC3339 timeStr
    else if format = "Unix" then
      (parseInt64 timeStr).map fun v => ⟨v * 1000000000, plat.localZone⟩
    else if format = "UnixMilli" then
      (parseInt64 timeStr).map fun v => ⟨v * 1000000, plat.localZone⟩
    else if format = "UnixMicro" then
      (parseInt64 timeStr).map fun v => ⟨v * 1000, plat.localZone⟩
    else if format = "UnixNano" then
      (parseInt64 timeStr).map fun v => ⟨v, plat.localZone⟩
    else plat.layoutParse format timeStr
  match r with
  | some t => Except.ok t
  | none => Except.error (.parseFailure timeStr format)

/-- Model of the `isDST` heuristic: offset now strictly greater than the
offset six calendar months later. -/
def isDST (t : GoTime) (loc : Zone) : Bool :=
  let offset1 := offsetAt t.loc (unixSec t)
  let sixMonthsLater := addDate t 0 6 0
  let offset2 := offsetAt loc (unixSec sixMonthsLater)
  decide (offset1 > offset2)

/-- The day-stepping loop of `getNextDSTTransition`, with the remaining
iteration count explicit. -/
def nextTransLoop (loc : Zone) (currentOffset : Int) : Nat → GoTime → Option DSTTransitionInfo
  | 0, _ => none
  | n + 1, current =>
    let next := addDate current 0 0 1
    let nextInZone := goIn next loc
    let nextOffset := offsetAt loc (unixSec nextInZone)
    if nextOffset ≠ currentOffset then
      some ⟨nextInZone,
        if nextOffset < currentOffset then "exit_dst" else "enter_dst",
        nextOffset - currentOffset⟩
    else nextTransLoop loc currentOffset n next

/-- Model of `getNextDSTTransition`: 365 one-day steps. -/
def getNextDSTTransition (t : GoTime) (loc : Zone) : Option DSTTransitionInfo :=
  nextTransLoop loc (offsetAt t.loc (unixSec t)) 365 t

/-- Model of `getTimezoneInfoInternal`. -/
def getTimezoneInfoInternal (cfg : Config) (plat : Platform) (now : GoTime)
    (timezone0 : String) (referenceTime : Option GoTime) : Except TimeError TimezoneInfo :=
  let timezone := if timezone0 = "" then cfg.defaultTimezone else timezone0
  match loadLocation plat timezone with
  | none => Except.error (.invalidTimezone timezone)
  | some loc =>
    let refTime := referenceTime.getD now
    let timeInZone := goIn refTime loc
    Except.ok
      { name := timezone
        abbreviation := abbrAt loc (unixSec timeInZone)
        offset := formatOffset (offsetAt loc (unixSec timeInZone))
        offsetSeconds := offsetAt loc (unixSec timeInZone)
        isDST := isDST timeInZone loc
        dstTransition := getNextDSTTransition timeInZone loc }

/-- Model of the public `GetTimezoneInfo` (a zero `ReferenceTime` in the
input means "use the current time", modelled by `Option`). -/
def GetTimezoneInfo (cfg : Config) (plat : Platform) (now : GoTime)
    (input : TimezoneInfoInput) : Except TimeError TimezoneInfo :=
  let timezone := if input.timezone = "" then cfg.defaultTimezone else input.timezone
  let refTime := input.referenceTime.getD now
  getTimezoneInfoInternal cfg plat now timezone (some refTime)

/-- Model of `ConvertTimezone`. -/
def ConvertTimezone (plat : Platform) (t : GoTime) (fromTZ toTZ : String) :
    Except TimeError GoTime :=
  match loadLocation plat toTZ with
  | none => Except.error (.invalidDestinationTimezone toTZ)
  | some toLoc =>
    if fromTZ ≠ "" ∧ t.loc = utcZone then
      match loadLocation plat fromTZ with
      | none => Except.error (.invalidSourceTimezone fromTZ)
      | some fromLoc =>
        Except.ok (goIn (goDate (goYear t) (goMonth t) (goDay t) (goHour t) (goMinute t)
          (goSecond t) (goNanosecond t) fromLoc) toLoc)
    else Except.ok (goIn t toLoc)

/-- Model of `getCurrentTimeInternal`. -/
def getCurrentTimeInternal (cfg : Config) (plat : Platform) (now : GoTime)
    (timezone0 : String) : Except TimeError GoTime :=
  let timezone := if timezone0 = "" then cfg.defaultTimezone else timezone0
  match loadLocation plat timezone with
  | none => Except.error (.invalidTimezone timezone)
  | some loc => Except.ok (goIn now loc)

/-- Model of the public `GetCurrentTime`. -/
def GetCurrentTime (cfg : Config) (plat : Platform) (now : GoTime)
    (input : GetTimeInput) : Except TimeError GetTimeResult := do
  let timezone := if input.timezone = "" then cfg.defaultTimezone else input.timezone
  let format := if input.format = "" then cfg.defaultFormat else input.format
  let currentTime ← getCurrentTimeInternal cfg plat now timezone
  let formatted ← formatTimeInternal cfg plat currentTime format
  Except.ok {
    formattedTime := formatted,
    timezone := timezone,
    format := format,
    unixTimestamp := unixSec currentTime }

/-- The timestamp type-switch at the head of `FormatTime`: a string is
tried as a decimal Unix timestamp and then as RFC 3339; integers become
`time.Unix(v, 0)` (in the process-local zone); a `time.Time` passes
through. -/
def parseTimestampValue (plat : Platform) : TimestampValue → Except TimeError GoTime
  | .str v =>
    match parseInt64 v with
    | some unixTime => Except.ok (⟨unixTime * 1000000000, plat.localZone⟩ : GoTime)
    | none =>
      match parseRFC3339 v with
      | some t => Except.ok t
      | none => Except.error (TimeError.parseTimestampFailure v)
  | .intVal v => Except.ok (⟨v * 1000000000, plat.localZone⟩ : GoTime)
  | .timeVal t => Except.ok t

/-- The target-timezone projection step of `FormatTime`. -/
def formatTimeProject (plat : Platform) (timezone : String) (t1 : GoTime) :
    Except TimeError GoTime :=
  if timezone ≠ "" then
    match loadLocation plat timezone with
    | none => Except.error (TimeError.invalidTimezone timezone)
    | some loc => Except.ok (goIn t1 loc)
  else Except.ok t1

/-- Model of the public `FormatTime`.  The `interface{}` timestamp
becomes a tagged variant (`int`/`int64` collapse to `intVal`; the
`float64` case, which truncates a float, is outside the model). -/
def FormatTime (cfg : Config) (plat : Platform) (input : FormatTimeInput) :
    Except TimeError FormatTimeResult := do
  let format := input.format
  let timezone := if input.timezone = "" then cfg.defaultTimezone else input.timezone
  let t1 ← parseTimestampValue plat input.timestamp
  let t2 ← formatTimeProject plat timezone t1
  let formatted ← formatTimeInternal cfg plat t2 format
  Except.ok {
    formattedTime := formatted,
    timezone := t2.loc.name,
    format := format,
    unixTimestamp := unixSec t2 }

/-- The timezone-application step of `ParseTime`: when a timezone is
supplied, a parsed instant whose zone is exactly the UTC marker has its
wall-clock fields reinterpreted in the resolved zone via `time.Date`;
any other parsed instant is projected with `In`. -/
def applyParseTimezone (plat : Platform) (timezone : String) (parsed0 : GoTime) :
    Except TimeError GoTime :=
  if timezone ≠ "" then
    match loadLocation plat timezone with
    | none => Except.error (TimeError.invalidTimezone timezone)
    | some loc =>
      if parsed0.loc = utcZone then
        Except.ok (goDate (goYear parsed0) (goMonth parsed0) (goDay parsed0)
          (goHour parsed0) (goMinute parsed0) (goSecond parsed0) (goNanosecond parsed0) loc)
      else Except.ok (goIn parsed0 loc)
  else Except.ok parsed0

/-- Model of the public `ParseTime`. -/
def ParseTime (cfg : Config) (plat : Platform) (input : ParseTimeInput) :
    Except TimeError ParseTimeResult := do
  let format := if input.format = "" then cfg.defaultFormat else input.format
  let parsed0 ← parseTimeInternal cfg plat input.timeString format
  let parsedTime ← applyParseTimezone plat input.timezone parsed0
  Except.ok {
    unixTimestamp := unixSec parsedTime,
    rfc3339 := formatRFC3339 parsedTime,
    timezone := parsedTime.loc.name,
    isDST := isDST parsedTime parsedTime.loc }

/-- Unit granularity, in nanoseconds, of each recognized format
identifier: one second for `Unix` and `RFC3339`, a millisecond for
`UnixMilli`, a microsecond for `UnixMicro`, a nanosecond for `UnixNano`
and `RFC3339Nano`. -/
def granOf : String → Int
  | "Unix" => 1000000000
  | "RFC3339" => 1000000000
  | "UnixMilli" => 1000000
  | "UnixMicro" => 1000
  | _ => 1

/-- The rendering the specification describes for `formatOffset`: a
sign (`+` for zero), exactly two zero-padded digits of hours, a colon,
and exactly two zero-padded digits of minutes.  Stated independently of
the service's `formatOffset` so the two can be compared. -/
def offsetSpecRender (o : Int) : String :=
  String.mk ((if o < 0 then '-' else '+')
    :: decDigit (o.natAbs / 3600 / 10) :: decDigit (o.natAbs / 3600 % 10)
    :: ':' :: decDigit (o.natAbs % 3600 / 60 / 10) :: decDigit (o.natAbs % 3600 / 60 % 10) :: [])

deriving instance DecidableEq for Except

/-- A platform with an empty timezone database and a trivial layout
engine, used to instantiate theorems at concrete inputs. -/
def platTrivial : Platform :=
  ⟨[], ⟨"Local", "LMT", 0, []⟩, fun _ _ => "", fun _ _ => none⟩

/-- A fixed-offset database zone (UTC+1, no transitions). -/
def plusOneZone : Zone := ⟨"Etc/GMT-1", "+01", 3600, []⟩

/-- America/New_York with its 2023–2024 daylight-saving transitions. -/
def nyZone : Zone :=
  ⟨"America/New_York", "EST", -18000,
    [⟨1678604400, -14400, "EDT"⟩, ⟨1699164000, -18000, "EST"⟩,
     ⟨1710054000, -14400, "EDT"⟩, ⟨1730610000, -18000, "EST"⟩]⟩

/-- A platform whose database holds the two sample zones. -/
def platSample : Platform :=
  ⟨[plusOneZone, nyZone], ⟨"Local", "LMT", 0, []⟩, fun _ _ => "", fun _ _ => none⟩

/-- Iterated one-calendar-day stepping (`AddDate(0, 0, 1)` applied `k`
times), used to state properties of the transition search. -/
def dayIter : Nat → GoTime → GoTime
  | 0, t => t
  | k + 1, t => dayIter k (addDate t 0 0 1)

/-! ## Properties of the embedding -/

example : civilFromDays 0 = (1970, 1, 1) := by decide

example : daysFromCivil 1970 1 1 = 0 := by decide

example : civilFromDays 19716 = (2023, 12, 25) := by decide

example : daysFromCivil 2023 12 25 = 19716 := by decide

example : civilFromDays (-719468) = (0, 3, 1) := by decide

example : civilFromDays (-1) = (1969, 12, 31) := by decide

example : civilFromDays 19782 = (2024, 2, 29) := by decide

example : civilFromDays 11016 = (2000, 2, 29) := by decide

example : civilFromDays (-25509) = (1900, 2, 28) := by decide

example : civilFromDays (-25508) = (1900, 3, 1) := by decide

/-- Let-free restatement of `civilFromDays` used to drive `omega`. -/
theorem civilFromDays_eq (z : Int) :
    civilFromDays z =
      (let g := z + 719468
       let era := g / 146097
       let doe := g % 146097
       let c := (4 * doe + 3) / 146097
       let nc := (4 * doe + 3) % 146097 / 4
       let zc := (4 * nc + 3) / 1461
       let ny := (4 * nc + 3) % 1461 / 4
       let mp := (5 * ny + 2) / 153
       let d := ny - (153 * mp + 2) / 5 + 1
       let m := if mp < 10 then mp + 3 else mp - 9
       (100 * c + zc + era * 400 + (if m ≤ 2 then 1 else 0), m, d)) := rfl

/-- The civil conversions are mutually inverse: decoding any day number
and re-encoding the resulting date gives the day number back. -/
theorem days_civil_days (z : Int) :
    daysFromCivil (civilFromDays z).1 (civilFromDays z).2.1 (civilFromDays z).2.2 = z := by
  rw [civilFromDays_eq]
  simp only []
  set g := z + 719468 with hgdef
  set era := g / 146097 with heradef
  set doe := g % 146097 with hdoedef
  set c := (4 * doe + 3) / 146097 with hcdef
  set nc := (4 * doe + 3) % 146097 / 4 with hncdef
  set zc := (4 * nc + 3) / 1461 with hzcdef
  set ny := (4 * nc + 3) % 1461 / 4 with hnydef
  set mp := (5 * ny + 2) / 153 with hmpdef
  have hdoe : 0 ≤ doe ∧ doe ≤ 146096 ∧ z = 146097 * era + doe - 719468 := by omega
  have hcnc : doe = 36524 * c + nc ∧ 0 ≤ c ∧ c ≤ 3 ∧ 0 ≤ nc ∧ nc ≤ 36524 := by omega
  have hzny : nc = 365 * zc + zc / 4 + ny ∧ 0 ≤ zc ∧ zc ≤ 99 ∧ 0 ≤ ny ∧ ny ≤ 365 := by omega
  have hmp : 0 ≤ mp ∧ mp ≤ 11 := by omega
  by_cases hlt : mp < 10
  · simp only [if_pos hlt]
    have h2 : ¬ (mp + 3 ≤ 2) := by omega
    simp only [if_neg h2]
    unfold daysFromCivil
    simp only [if_neg h2]
    have hm12 : (mp + 3 + 9) % 12 = mp := by omega
    rw [hm12]
    have h0 : 100 * c + zc + era * 400 + 0 - 0 = 100 * c + zc + era * 400 := by ring
    rw [h0]
    have h1 : (100 * c + zc + era * 400) / 400 = era := by omega
    rw [h1]
    have h2' : 100 * c + zc + era * 400 - era * 400 = 100 * c + zc := by ring
    rw [h2']
    have h3 : (100 * c + zc) / 4 = 25 * c + zc / 4 := by omega
    have h4 : (100 * c + zc) / 100 = c := by omega
    rw [h3, h4]
    omega
  · simp only [if_neg hlt]
    have h2 : mp - 9 ≤ 2 := by omega
    simp only [if_pos h2]
    unfold daysFromCivil
    simp only [if_pos h2]
    have hm12 : (mp - 9 + 9) % 12 = mp := by omega
    rw [hm12]
    have h0 : 100 * c + zc + era * 400 + 1 - 1 = 100 * c + zc + era * 400 := by ring
    rw [h0]
    have h1 : (100 * c + zc + era * 400) / 400 = era := by omega
    rw [h1]
    have h2' : 100 * c + zc + era * 400 - era * 400 = 100 * c + zc := by ring
    rw [h2']
    have h3 : (100 * c + zc) / 4 = 25 * c + zc / 4 := by omega
    have h4 : (100 * c + zc) / 100 = c := by omega
    rw [h3, h4]
    omega

/-- A decoded month always lies in `[1, 12]`. -/
theorem civil_month_range (z : Int) :
    1 ≤ (civilFromDays z).2.1 ∧ (civilFromDays z).2.1 ≤ 12 := by
  rw [civilFromDays_eq]
  simp only []
  split_ifs <;> omega

/-- A decoded day-of-month always lies in `[1, 31]`. -/
theorem civil_day_range (z : Int) :
    1 ≤ (civilFromDays z).2.2 ∧ (civilFromDays z).2.2 ≤ 31 := by
  rw [civilFromDays_eq]
  simp only []
  omega

theorem revDecDigitsF_congr :
    ∀ {n f g : Nat}, n < f → n < g → revDecDigitsF f n = revDecDigitsF g n := by
  intro n
  induction n using Nat.strong_induction_on with
  | _ n ih =>
    intro f g hf hg
    match f, g with
    | f' + 1, g' + 1 =>
      simp only [revDecDigitsF]
      split
      · rfl
      · next h =>
        congr 1
        exact ih (n / 10) (by omega) (by omega) (by omega)

/-- The natural unfolding equation of `revDecDigits`. -/
theorem revDecDigits_unfold (n : Nat) :
    revDecDigits n =
      if n < 10 then [decDigit n] else decDigit (n % 10) :: revDecDigits (n / 10) := by
  show revDecDigitsF (n + 1) n = _
  simp only [revDecDigitsF]
  split
  · rfl
  · next h =>
    congr 1
    exact revDecDigitsF_congr (by omega) (by omega)

theorem charDigit_decDigit {d : Nat} (h : d < 10) :
    charDigit (decDigit d) = some d := by
  interval_cases d <;> decide

theorem decDigit_ne_minus {d : Nat} (h : d < 10) : decDigit d ≠ '-' := by
  interval_cases d <;> decide

theorem decDigit_ne_plus {d : Nat} (h : d < 10) : decDigit d ≠ '+' := by
  interval_cases d <;> decide

/-- Every character produced by `revDecDigits` is a decimal digit. -/
theorem revDecDigits_digits (n : Nat) :
    ∀ c ∈ revDecDigits n, ∃ d, d < 10 ∧ c = decDigit d := by
  induction n using Nat.strong_induction_on with
  | _ n ih =>
    rw [revDecDigits_unfold]
    split
    · intro c hc
      simp only [List.mem_singleton] at hc
      exact ⟨n, by omega, hc⟩
    · intro c hc
      simp only [List.mem_cons] at hc
      rcases hc with h | h
      · exact ⟨n % 10, by omega, h⟩
      · exact ih (n / 10) (by omega) c h

theorem valFold_append (acc : Nat) (l1 l2 : List Char) :
    valFold acc (l1 ++ l2) = (valFold acc l1).bind (fun v => valFold v l2) := by
  induction l1 generalizing acc with
  | nil => rfl
  | cons c cs ih =>
    simp only [List.cons_append, valFold]
    cases charDigit c with
    | some d => exact ih (acc * 10 + d)
    | none => rfl

/-- Reading back the digits of `n` (most significant first) on top of an
accumulator. -/
theorem valFold_natDecChars (n : Nat) :
    ∀ acc, valFold acc (natDecChars n) =
      some (acc * 10 ^ (natDecChars n).length + n) := by
  induction n using Nat.strong_induction_on with
  | _ n ih =>
    intro acc
    unfold natDecChars
    rw [revDecDigits_unfold]
    split
    · next h =>
      simp only [List.reverse_singleton, valFold, charDigit_decDigit h]
      simp
    · next h =>
      simp only [List.reverse_cons]
      rw [valFold_append]
      have hrec := ih (n / 10) (by omega) acc
      unfold natDecChars at hrec
      rw [hrec]
      simp only [Option.some_bind]
      simp only [valFold, charDigit_decDigit (Nat.mod_lt n (by omega) : n % 10 < 10)]
      simp only [List.length_append, List.length_reverse, List.length_singleton]
      congr 1
      have : n = 10 * (n / 10) + n % 10 := (Nat.div_add_mod n 10).symm
      ring_nf
      omega

theorem data_mk (l : List Char) : (String.mk l).data = l := rfl

theorem natDecChars_ne_nil (n : Nat) : natDecChars n ≠ [] := by
  unfold natDecChars
  rw [revDecDigits_unfold]
  split <;> simp

theorem digitsVal_natDecChars (n : Nat) : digitsVal (natDecChars n) = some n := by
  have hval := valFold_natDecChars n 0
  rcases hL : natDecChars n with _ | ⟨c, cs⟩
  · exact absurd hL (natDecChars_ne_nil n)
  · rw [hL] at hval
    show valFold 0 (c :: cs) = some n
    simpa using hval

theorem natDecChars_head (n : Nat) :
    ∃ d rest, natDecChars n = decDigit d :: rest ∧ d < 10 := by
  rcases hrev : natDecChars n with _ | ⟨c, rest⟩
  · exact absurd hrev (natDecChars_ne_nil n)
  · have hc : c ∈ revDecDigits n := by
      have h1 : c ∈ natDecChars n := by rw [hrev]; exact List.mem_cons_self c rest
      unfold natDecChars at h1
      simpa using h1
    obtain ⟨d, hd, hcd⟩ := revDecDigits_digits _ c hc
    exact ⟨d, rest, by rw [hcd], hd⟩

/-- Round trip of `strconv`-style decimal format and parse inside the
64-bit signed range. -/
theorem parseInt64_intDecString (v : Int)
    (hlo : -9223372036854775808 ≤ v) (hhi : v ≤ 9223372036854775807) :
    parseInt64 (intDecString v) = some v := by
  unfold parseInt64 intDecString
  rw [data_mk]
  unfold intDecChars
  by_cases hneg : v < 0
  · rw [if_pos hneg]
    show (digitsVal (natDecChars v.natAbs)).bind _ = some v
    rw [digitsVal_natDecChars]
    simp only [Option.some_bind]
    rw [if_pos (by omega)]
    congr 1
    omega
  · rw [if_neg hneg]
    obtain ⟨d, rest, hform, hd⟩ := natDecChars_head v.natAbs
    rw [hform]
    simp only [parseInt64Chars]
    rw [if_neg (decDigit_ne_minus hd), if_neg (decDigit_ne_plus hd), ← hform,
      digitsVal_natDecChars]
    simp only [Option.some_bind]
    rw [if_pos (by omega)]
    congr 1
    omega

theorem readFixed_fixedDigits (w : Nat) :
    ∀ (n acc : Nat) (rest : List Char), n < 10 ^ w →
      readFixed w acc (fixedDigits w n ++ rest) = some (acc * 10 ^ w + n, rest) := by
  induction w with
  | zero => intro n acc rest h; interval_cases n; simp [fixedDigits, readFixed]
  | succ w ih =>
    intro n acc rest h
    have hq : n / 10 ^ w < 10 := by
      have : n < 10 * 10 ^ w := by
        have : (10 : Nat) ^ (w + 1) = 10 * 10 ^ w := by ring
        omega
      exact Nat.div_lt_of_lt_mul (by omega)
    simp only [fixedDigits, List.cons_append, List.append_eq, readFixed, charDigit_decDigit hq]
    have hmod : n % 10 ^ w < 10 ^ w := Nat.mod_lt _ (Nat.pow_pos (by omega))
    rw [ih (n % 10 ^ w) (acc * 10 + n / 10 ^ w) rest hmod]
    congr 2
    calc (acc * 10 + n / 10 ^ w) * 10 ^ w + n % 10 ^ w
        = acc * (10 ^ w * 10) + (10 ^ w * (n / 10 ^ w) + n % 10 ^ w) := by ring
      _ = acc * 10 ^ (w + 1) + n := by rw [Nat.div_add_mod, ← pow_succ]

theorem expectChar_cons (c : Char) (l : List Char) :
    expectChar c (c :: l) = some l := by simp [expectChar]

theorem natDecChars_two_digit {n : Nat} (h10 : 10 ≤ n) (h100 : n < 100) :
    natDecChars n = [decDigit (n / 10), decDigit (n % 10)] := by
  unfold natDecChars
  rw [revDecDigits_unfold]
  rw [if_neg (by omega)]
  rw [revDecDigits_unfold]
  rw [if_pos (by omega)]
  simp

/-- For values below 100 the `%02d` field is exactly two digits. -/
theorem pad2min_eq {n : Nat} (h : n < 100) :
    pad2min n = [decDigit (n / 10), decDigit (n % 10)] := by
  unfold pad2min
  split
  · next hlt =>
    have h1 : n / 10 = 0 := by omega
    have h2 : n % 10 = n := by omega
    rw [h1, h2]
    rfl
  · next hge => exact natDecChars_two_digit (by omega) h

theorem offsetAt_utc (sec : Int) : offsetAt utcZone sec = 0 := rfl

theorem offsetAt_fixed (off sec : Int) : offsetAt (fixedZone off) sec = off := rfl

example : formatOffset 0 = "+00:00" := by decide

example : formatOffset (-3600) = "-01:00" := by decide

example : formatOffset 5400 = "+01:30" := by decide
theorem charDigit_zero : charDigit '0' = some 0 := by decide

theorem valFold_replicate_zero (j : Nat) :
    ∀ v, valFold v (List.replicate j '0') = some (v * 10 ^ j) := by
  induction j with
  | zero => intro v; simp [valFold]
  | succ j ih =>
    intro v
    simp only [List.replicate_succ, valFold, charDigit_zero]
    rw [ih]
    congr 1
    ring

theorem fixedDigits_length (w : Nat) : ∀ n, (fixedDigits w n).length = w := by
  induction w with
  | zero => intro n; rfl
  | succ w ih => intro n; simp [fixedDigits, ih]

theorem fixedDigits_all_digits (w : Nat) :
    ∀ n c, n < 10 ^ w → c ∈ fixedDigits w n → ∃ d, d < 10 ∧ c = decDigit d := by
  induction w with
  | zero => intro n c _ hc; simp [fixedDigits] at hc
  | succ w ih =>
    intro n c hn hc
    simp only [fixedDigits, List.mem_cons] at hc
    rcases hc with h | h
    · refine ⟨n / 10 ^ w, ?_, h⟩
      have h2 : (10 : Nat) ^ (w + 1) = 10 * 10 ^ w := by ring
      exact Nat.div_lt_of_lt_mul (by omega)
    · exact ih (n % 10 ^ w) c (Nat.mod_lt _ (Nat.pow_pos (by omega))) h

theorem valFold_fixedDigits (w : Nat) :
    ∀ n acc, n < 10 ^ w → valFold acc (fixedDigits w n) = some (acc * 10 ^ w + n) := by
  induction w with
  | zero => intro n acc h; interval_cases n; simp [fixedDigits, valFold]
  | succ w ih =>
    intro n acc h
    have hq : n / 10 ^ w < 10 := by
      have h2 : (10 : Nat) ^ (w + 1) = 10 * 10 ^ w := by ring
      exact Nat.div_lt_of_lt_mul (by omega)
    simp only [fixedDigits, valFold, charDigit_decDigit hq]
    rw [ih (n % 10 ^ w) _ (Nat.mod_lt _ (Nat.pow_pos (by omega)))]
    congr 1
    calc (acc * 10 + n / 10 ^ w) * 10 ^ w + n % 10 ^ w
        = acc * (10 ^ w * 10) + (10 ^ w * (n / 10 ^ w) + n % 10 ^ w) := by ring
      _ = acc * 10 ^ (w + 1) + n := by rw [Nat.div_add_mod, ← pow_succ]

theorem trim_decomp (l : List Char) :
    l = trimZerosRight l ++ List.replicate (l.length - (trimZerosRight l).length) '0' := by
  have hsplit : List.takeWhile (· == '0') l.reverse ++ List.dropWhile (· == '0') l.reverse
      = l.reverse := List.takeWhile_append_dropWhile (fun x => x == '0') l.reverse
  have hT : List.takeWhile (· == '0') l.reverse
      = List.replicate (List.takeWhile (· == '0') l.reverse).length '0' := by
    apply List.eq_replicate_of_mem
    intro b hb
    have hpb := List.mem_takeWhile_imp hb
    simpa using hpb
  have hlen : l.length = (trimZerosRight l).length
      + (List.takeWhile (· == '0') l.reverse).length := by
    have := congrArg List.length hsplit
    simp only [List.length_append, List.length_reverse] at this
    unfold trimZerosRight
    simp only [List.length_reverse]
    omega
  calc l = l.reverse.reverse := (List.reverse_reverse l).symm
    _ = (List.takeWhile (· == '0') l.reverse ++ List.dropWhile (· == '0') l.reverse).reverse := by
        rw [hsplit]
    _ = trimZerosRight l ++ (List.takeWhile (· == '0') l.reverse).reverse := by
        rw [List.reverse_append]; rfl
    _ = trimZerosRight l ++ List.replicate (l.length - (trimZerosRight l).length) '0' := by
        rw [hT]
        simp only [List.reverse_replicate, List.length_replicate]
        congr 2
        omega

theorem takeDigits_append (l1 l2 : List Char)
    (h1 : ∀ c ∈ l1, (charDigit c).isSome = true)
    (h2 : ∀ c cs, l2 = c :: cs → charDigit c = none) :
    takeDigits (l1 ++ l2) = (l1, l2) := by
  induction l1 with
  | nil =>
    simp only [List.nil_append]
    cases l2 with
    | nil => rfl
    | cons c cs =>
      have hc := h2 c cs rfl
      simp [takeDigits, hc]
  | cons c cs ih =>
    have hc := h1 c (List.mem_cons_self c cs)
    simp only [List.cons_append, takeDigits, hc, if_pos, List.append_eq]
    rw [ih (fun x hx => h1 x (List.mem_cons_of_mem c hx))]

theorem parseFracPart_not_dot {c : Char} (cs : List Char) (hc : c ≠ '.') :
    parseFracPart (c :: cs) = some (0, c :: cs) := by
  rw [parseFracPart.eq_def]
  split
  · next heq =>
    exact absurd (by injection heq) hc
  · rfl

theorem parseFracPart_frac (ns : Nat) (l2 : List Char)
    (h9 : ns < 1000000000) (hne : ns ≠ 0)
    (h2 : ∀ c cs, l2 = c :: cs → charDigit c = none) :
    parseFracPart (fracChars ns ++ l2) = some (ns, l2) := by
  have h10 : (1000000000 : Nat) = 10 ^ 9 := by norm_num
  have hds : valFold 0 (fixedDigits 9 ns) = some ns := by
    have := valFold_fixedDigits 9 ns 0 (by omega)
    simpa using this
  have hdecomp := trim_decomp (fixedDigits 9 ns)
  set tr := trimZerosRight (fixedDigits 9 ns) with htr
  set j := (fixedDigits 9 ns).length - tr.length with hj
  have hlen9 : (fixedDigits 9 ns).length = 9 := fixedDigits_length 9 ns
  have htrlen : tr.length + j = 9 := by
    have := congrArg List.length hdecomp
    simp only [List.length_append, List.length_replicate] at this
    omega
  have htrdig : ∀ c ∈ tr, (charDigit c).isSome = true := by
    intro c hcmem
    have hmem : c ∈ fixedDigits 9 ns := by
      rw [hdecomp]
      exact List.mem_append_left _ hcmem
    obtain ⟨d, hd, hcd⟩ := fixedDigits_all_digits 9 ns c (by omega) hmem
    rw [hcd, charDigit_decDigit hd]
    rfl
  have hvtr : ∃ v, valFold 0 tr = some v ∧ v * 10 ^ j = ns := by
    rw [hdecomp, valFold_append] at hds
    rcases hv : valFold 0 tr with _ | v
    · rw [hv] at hds; simp at hds
    · rw [hv] at hds
      simp only [Option.some_bind] at hds
      rw [valFold_replicate_zero] at hds
      exact ⟨v, rfl, by injection hds⟩
  obtain ⟨v, hv, hvns⟩ := hvtr
  have htrne : tr ≠ [] := by
    intro hnil
    rw [hnil] at hv
    have hv0 : v = 0 := by
      have : some 0 = some v := by simpa [valFold] using hv
      injection this with h0
      omega
    rw [hv0] at hvns
    simp at hvns
    exact hne hvns.symm
  have hfrac : fracChars ns = '.' :: tr := by
    unfold fracChars
    rw [if_neg hne]
  rw [hfrac]
  simp only [List.cons_append, parseFracPart]
  rw [takeDigits_append tr l2 htrdig h2]
  dsimp only
  have hlb : 1 ≤ tr.length := by
    cases htre : tr with
    | nil => exact absurd htre htrne
    | cons a b => simp [htre]
  rw [if_pos ⟨hlb, by omega⟩]
  have hdv : digitsVal tr = some v := by
    cases htre : tr with
    | nil => exact absurd htre htrne
    | cons a b =>
      rw [htre] at hv
      exact hv
  rw [hdv]
  show some (v * 10 ^ (9 - tr.length), l2) = some (ns, l2)
  have hexp : 9 - tr.length = j := by omega
  rw [hexp, hvns]

theorem readFixed_fixedDigits0 (w n : Nat) (rest : List Char) (h : n < 10 ^ w) :
    readFixed w 0 (fixedDigits w n ++ rest) = some (n, rest) := by
  have := readFixed_fixedDigits w n 0 rest h
  simpa using this

theorem readFixed_fixedDigits_exact (w n : Nat) (h : n < 10 ^ w) :
    readFixed w 0 (fixedDigits w n) = some (n, []) := by
  have := readFixed_fixedDigits0 w n [] h
  simpa using this

theorem rfc3339ZoneChars_head (off : Int) :
    ∃ c cs, rfc3339ZoneChars off = c :: cs ∧ charDigit c = none ∧ c ≠ '.' := by
  unfold rfc3339ZoneChars
  by_cases h0 : off = 0
  · rw [if_pos h0]
    exact ⟨'Z', [], rfl, by decide, by decide⟩
  · rw [if_neg h0]
    by_cases hneg : off < 0
    · rw [if_pos hneg]
      exact ⟨'-', _, rfl, by decide, by decide⟩
    · rw [if_neg hneg]
      exact ⟨'+', _, rfl, by decide, by decide⟩

theorem parseZonePart_format (off : Int) (hmod : off % 60 = 0)
    (hlo : -86400 < off) (hhi : off < 86400) :
    parseZonePart (rfc3339ZoneChars off) =
      some (if off = 0 then none else some off, []) := by
  unfold rfc3339ZoneChars
  by_cases h0 : off = 0
  · rw [if_pos h0, if_pos h0]
    rfl
  · rw [if_neg h0, if_neg h0]
    have hh : off.natAbs / 3600 < 10 ^ 2 := by omega
    have hm : off.natAbs % 3600 / 60 < 10 ^ 2 := by omega
    by_cases hneg : off < 0
    · rw [if_pos hneg]
      simp only [parseZonePart]
      rw [readFixed_fixedDigits0 2 _ _ hh]
      dsimp only
      rw [expectChar_cons]
      dsimp only
      rw [readFixed_fixedDigits_exact 2 _ hm]
      dsimp only
      rw [if_neg (by decide : ¬ ('-' : Char) = 'Z')]
      rw [if_pos (Or.inr trivial : ('-' : Char) = '+' ∨ True)]
      rw [if_pos (trivial : True)]
      simp only [Option.some.injEq, Prod.mk.injEq, and_true, true_and]
      omega
    · rw [if_neg hneg]
      simp only [parseZonePart]
      rw [readFixed_fixedDigits0 2 _ _ hh]
      dsimp only
      rw [expectChar_cons]
      dsimp only
      rw [readFixed_fixedDigits_exact 2 _ hm]
      dsimp only
      rw [if_neg (by decide : ¬ ('+' : Char) = 'Z')]
      rw [if_pos (Or.inl trivial : True ∨ ('+' : Char) = '-')]
      rw [if_neg (by decide : ¬ ('+' : Char) = '-')]
      simp only [Option.some.injEq, Prod.mk.injEq, and_true, true_and]
      omega

theorem parseDatePart_format (Y MO D : Nat) (rest : List Char)
    (hY : Y < 10 ^ 4) (hMO : MO < 10 ^ 2) (hD : D < 10 ^ 2) :
    parseDatePart (fixedDigits 4 Y ++ ('-' :: (fixedDigits 2 MO ++ ('-' :: (fixedDigits 2 D ++ rest)))))
      = some (Y, MO, D, rest) := by
  unfold parseDatePart
  rw [readFixed_fixedDigits0 4 Y _ hY]
  simp only [Option.bind_eq_bind, Option.some_bind]
  rw [expectChar_cons]
  simp only [Option.some_bind]
  rw [readFixed_fixedDigits0 2 MO _ hMO]
  simp only [Option.some_bind]
  rw [expectChar_cons]
  simp only [Option.some_bind]
  rw [readFixed_fixedDigits0 2 D _ hD]
  simp only [Option.some_bind]

theorem parseClockPart_format (H MI S : Nat) (rest : List Char)
    (hH : H < 10 ^ 2) (hMI : MI < 10 ^ 2) (hS : S < 10 ^ 2) :
    parseClockPart ('T' :: (fixedDigits 2 H ++ (':' :: (fixedDigits 2 MI ++ (':' :: (fixedDigits 2 S ++ rest))))))
      = some (H, MI, S, rest) := by
  unfold parseClockPart
  rw [expectChar_cons]
  simp only [Option.bind_eq_bind, Option.some_bind]
  rw [readFixed_fixedDigits0 2 H _ hH]
  simp only [Option.some_bind]
  rw [expectChar_cons]
  simp only [Option.some_bind]
  rw [readFixed_fixedDigits0 2 MI _ hMI]
  simp only [Option.some_bind]
  rw [expectChar_cons]
  simp only [Option.some_bind]
  rw [readFixed_fixedDigits0 2 S _ hS]
  simp only [Option.some_bind]

/-- Parsing the exact character shape produced by the RFC 3339
formatters recovers the encoded fields. -/
theorem parseRFC3339Chars_full (Y MO D H MI S ns : Nat) (off : Int)
    (hY : Y < 10000) (hMO1 : 1 ≤ MO) (hMO2 : MO ≤ 12) (hD1 : 1 ≤ D) (hD2 : D ≤ 31)
    (hH : H ≤ 23) (hMI : MI ≤ 59) (hS : S ≤ 59) (hns : ns < 1000000000)
    (hmod : off % 60 = 0) (hlo : -86400 < off) (hhi : off < 86400) :
    parseRFC3339Chars (fixedDigits 4 Y ++ ('-' :: (fixedDigits 2 MO ++ ('-' :: (fixedDigits 2 D
      ++ ('T' :: (fixedDigits 2 H ++ (':' :: (fixedDigits 2 MI ++ (':' :: (fixedDigits 2 S
      ++ (fracChars ns ++ rfc3339ZoneChars off))))))))))))
    = some ⟨(daysFromCivil (Y : Int) (MO : Int) (D : Int) * 86400
        + (H : Int) * 3600 + (MI : Int) * 60 + (S : Int) - off) * 1000000000 + (ns : Int),
        if off = 0 then utcZone else fixedZone off⟩ := by
  obtain ⟨zc, zcs, hzeq, hzdig, hzdot⟩ := rfc3339ZoneChars_head off
  unfold parseRFC3339Chars
  rw [parseDatePart_format Y MO D _ (by omega) (by omega) (by omega)]
  simp only [Option.bind_eq_bind, Option.some_bind]
  rw [parseClockPart_format H MI S _ (by omega) (by omega) (by omega)]
  simp only [Option.some_bind]
  have hfrac : parseFracPart (fracChars ns ++ rfc3339ZoneChars off)
      = some (ns, rfc3339ZoneChars off) := by
    by_cases hns0 : ns = 0
    · rw [hns0]
      show parseFracPart (fracChars 0 ++ rfc3339ZoneChars off) = _
      have : fracChars 0 = [] := rfl
      rw [this, List.nil_append, hzeq, parseFracPart_not_dot _ hzdot, ← hzeq]
    · exact parseFracPart_frac ns _ hns hns0
        (fun c cs hcs => by
          rw [hzeq] at hcs
          injection hcs with h1 h2
          rw [← h1]
          exact hzdig)
  rw [hfrac]
  simp only [Option.some_bind]
  rw [parseZonePart_format off hmod hlo hhi]
  simp only [Option.some_bind]
  rw [if_pos ⟨by trivial, hMO1, hMO2, hD1, hD2, hH, hMI, hS⟩]
  by_cases h0 : off = 0
  · rw [if_pos h0, if_pos h0]
    simp [h0]
  · rw [if_neg h0, if_neg h0]
    simp

/-- The zone a parsed RFC 3339 string carries: `time.UTC` for a `Z`
suffix, the corresponding fixed zone otherwise. -/
theorem parseRFC3339_formatRFC3339 (t : GoTime)
    (hy1 : 1 ≤ goYear t) (hy2 : goYear t ≤ 9999)
    (hmod : offsetAt t.loc (unixSec t) % 60 = 0)
    (hlo : -86400 < offsetAt t.loc (unixSec t))
    (hhi : offsetAt t.loc (unixSec t) < 86400) :
    parseRFC3339 (formatRFC3339 t) =
      some ⟨unixSec t * 1000000000,
        if offsetAt t.loc (unixSec t) = 0 then utcZone
        else fixedZone (offsetAt t.loc (unixSec t))⟩ := by
  set off := offsetAt t.loc (unixSec t) with hoffdef
  set w := wallSec t with hwdef
  have hw : w = unixSec t + off := rfl
  set days := w / 86400 with hdaysdef
  set sod := w % 86400 with hsoddef
  have hsplit : days * 86400 + sod = w := by omega
  obtain ⟨hm1, hm2⟩ := civil_month_range days
  obtain ⟨hd1, hd2⟩ := civil_day_range days
  have hsod1 : 0 ≤ sod := Int.emod_nonneg w (by norm_num)
  have hsod2 : sod < 86400 := Int.emod_lt_of_pos w (by norm_num)
  have hgy : goYear t = (civilFromDays days).1 := rfl
  have key := parseRFC3339Chars_full (civilFromDays days).1.toNat
    (civilFromDays days).2.1.toNat (civilFromDays days).2.2.toNat
    (sod / 3600).toNat (sod % 3600 / 60).toNat (sod % 60).toNat 0 off
    (by omega) (by omega) (by omega) (by omega) (by omega)
    (by omega) (by omega) (by omega) (by omega) hmod hlo hhi
  rw [show fracChars 0 = [] from rfl, List.nil_append] at key
  unfold parseRFC3339 formatRFC3339 rfc3339BaseChars
  rw [data_mk]
  simp only [List.append_assoc, List.cons_append]
  rw [← hwdef, ← hdaysdef, ← hsoddef, ← hoffdef]
  rw [key]
  simp only [Option.some.injEq, GoTime.mk.injEq]
  constructor
  · have hYc : (((civilFromDays days).1.toNat : Nat) : Int) = (civilFromDays days).1 := by omega
    have hMc : (((civilFromDays days).2.1.toNat : Nat) : Int) = (civilFromDays days).2.1 := by omega
    have hDc : (((civilFromDays days).2.2.toNat : Nat) : Int) = (civilFromDays days).2.2 := by omega
    have hHc : (((sod / 3600).toNat : Nat) : Int) = sod / 3600 := by omega
    have hMIc : (((sod % 3600 / 60).toNat : Nat) : Int) = sod % 3600 / 60 := by omega
    have hSc : (((sod % 60).toNat : Nat) : Int) = sod % 60 := by omega
    rw [hYc, hMc, hDc, hHc, hMIc, hSc, days_civil_days days]
    omega
  · trivial

theorem parseRFC3339_formatRFC3339Nano (t : GoTime)
    (hy1 : 1 ≤ goYear t) (hy2 : goYear t ≤ 9999)
    (hmod : offsetAt t.loc (unixSec t) % 60 = 0)
    (hlo : -86400 < offsetAt t.loc (unixSec t))
    (hhi : offsetAt t.loc (unixSec t) < 86400) :
    parseRFC3339 (formatRFC3339Nano t) =
      some ⟨t.nanos,
        if offsetAt t.loc (unixSec t) = 0 then utcZone
        else fixedZone (offsetAt t.loc (unixSec t))⟩ := by
  set off := offsetAt t.loc (unixSec t) with hoffdef
  set w := wallSec t with hwdef
  have hw : w = unixSec t + off := rfl
  set days := w / 86400 with hdaysdef
  set sod := w % 86400 with hsoddef
  have hsplit : days * 86400 + sod = w := by omega
  obtain ⟨hm1, hm2⟩ := civil_month_range days
  obtain ⟨hd1, hd2⟩ := civil_day_range days
  have hsod1 : 0 ≤ sod := Int.emod_nonneg w (by norm_num)
  have hsod2 : sod < 86400 := Int.emod_lt_of_pos w (by norm_num)
  have hgy : goYear t = (civilFromDays days).1 := rfl
  have hns1 : 0 ≤ goNanosecond t := Int.emod_nonneg t.nanos (by norm_num)
  have hns2 : goNanosecond t < 1000000000 := Int.emod_lt_of_pos t.nanos (by norm_num)
  have hunix : unixSec t * 1000000000 + goNanosecond t = t.nanos := by
    have := Int.ediv_add_emod t.nanos 1000000000
    show t.nanos / 1000000000 * 1000000000 + t.nanos % 1000000000 = t.nanos
    omega
  have key := parseRFC3339Chars_full (civilFromDays days).1.toNat
    (civilFromDays days).2.1.toNat (civilFromDays days).2.2.toNat
    (sod / 3600).toNat (sod % 3600 / 60).toNat (sod % 60).toNat
    (goNanosecond t).toNat off
    (by omega) (by omega) (by omega) (by omega) (by omega)
    (by omega) (by omega) (by omega) (by omega) hmod hlo hhi
  unfold parseRFC3339 formatRFC3339Nano rfc3339BaseChars
  rw [data_mk]
  simp only [List.append_assoc, List.cons_append]
  rw [← hwdef, ← hdaysdef, ← hsoddef, ← hoffdef]
  rw [key]
  simp only [Option.some.injEq, GoTime.mk.injEq]
  constructor
  · have hYc : (((civilFromDays days).1.toNat : Nat) : Int) = (civilFromDays days).1 := by omega
    have hMc : (((civilFromDays days).2.1.toNat : Nat) : Int) = (civilFromDays days).2.1 := by omega
    have hDc : (((civilFromDays days).2.2.toNat : Nat) : Int) = (civilFromDays days).2.2 := by omega
    have hHc : (((sod / 3600).toNat : Nat) : Int) = sod / 3600 := by omega
    have hMIc : (((sod % 3600 / 60).toNat : Nat) : Int) = sod % 3600 / 60 := by omega
    have hSc : (((sod % 60).toNat : Nat) : Int) = sod % 60 := by omega
    have hNSc : (((goNanosecond t).toNat : Nat) : Int) = goNanosecond t := by omega
    rw [hYc, hMc, hDc, hHc, hMIc, hSc, hNSc, days_civil_days days]
    omega
  · trivial

theorem civil_year_bound (z : Int) (h1 : -150000 ≤ z) (h2 : z ≤ 150000) :
    1 ≤ (civilFromDays z).1 ∧ (civilFromDays z).1 ≤ 9999 := by
  rw [civilFromDays_eq]
  simp only []
  split_ifs <;> omega

theorem IsFormatSupported_true {cfg : Config} {f : String}
    (h : f ∈ cfg.supportedFormats) : IsFormatSupported cfg f = true := by
  simpa [IsFormatSupported] using h

theorem c2_case_unix (cfg : Config) (plat : Platform) (t : GoTime)
    (hsup : "Unix" ∈ cfg.supportedFormats)
    (hlo64 : -9223372036854775808 ≤ t.nanos) (hhi64 : t.nanos ≤ 9223372036854775807) :
    formatTimeInternal cfg plat t "Unix" = Except.ok (intDecString (unixSec t))
      ∧ parseTimeInternal cfg plat (intDecString (unixSec t)) "Unix"
        = Except.ok ⟨unixSec t * 1000000000, plat.localZone⟩ := by
  constructor
  · simp only [formatTimeInternal]
    rw [if_neg (by decide : ¬ ("Unix" : String) = "")]
    rw [if_pos (IsFormatSupported_true hsup)]
    rw [if_neg (by decide : ¬ ("Unix" : String) = "RFC3339")]
    rw [if_neg (by decide : ¬ ("Unix" : String) = "RFC3339Nano")]
    rw [if_pos (rfl : ("Unix" : String) = "Unix")]
  · simp only [parseTimeInternal]
    rw [if_neg (by decide : ¬ ("Unix" : String) = "")]
    rw [if_neg (by decide : ¬ ("Unix" : String) = "RFC3339")]
    rw [if_neg (by decide : ¬ ("Unix" : String) = "RFC3339Nano")]
    rw [if_pos (rfl : ("Unix" : String) = "Unix")]
    have hu : unixSec t = t.nanos / 1000000000 := rfl
    rw [parseInt64_intDecString (unixSec t) (by omega) (by omega)]
    rfl

theorem c2_case_unixmilli (cfg : Config) (plat : Platform) (t : GoTime)
    (hsup : "UnixMilli" ∈ cfg.supportedFormats)
    (hlo64 : -9223372036854775808 ≤ t.nanos) (hhi64 : t.nanos ≤ 9223372036854775807) :
    formatTimeInternal cfg plat t "UnixMilli" = Except.ok (intDecString (goUnixMilli t))
      ∧ parseTimeInternal cfg plat (intDecString (goUnixMilli t)) "UnixMilli"
        = Except.ok ⟨goUnixMilli t * 1000000, plat.localZone⟩ := by
  constructor
  · simp only [formatTimeInternal]
    rw [if_neg (by decide : ¬ ("UnixMilli" : String) = "")]
    rw [if_pos (IsFormatSupported_true hsup)]
    rw [if_neg (by decide : ¬ ("UnixMilli" : String) = "RFC3339")]
    rw [if_neg (by decide : ¬ ("UnixMilli" : String) = "RFC3339Nano")]
    rw [if_neg (by decide : ¬ ("UnixMilli" : String) = "Unix")]
    rw [if_pos (rfl : ("UnixMilli" : String) = "UnixMilli")]
  · simp only [parseTimeInternal]
    rw [if_neg (by decide : ¬ ("UnixMilli" : String) = "")]
    rw [if_neg (by decide : ¬ ("UnixMilli" : String) = "RFC3339")]
    rw [if_neg (by decide : ¬ ("UnixMilli" : String) = "RFC3339Nano")]
    rw [if_neg (by decide : ¬ ("UnixMilli" : String) = "Unix")]
    rw [if_pos (rfl : ("UnixMilli" : String) = "UnixMilli")]
    have hu : goUnixMilli t = t.nanos / 1000000 := rfl
    rw [parseInt64_intDecString (goUnixMilli t) (by omega) (by omega)]
    rfl

theorem c2_case_unixmicro (cfg : Config) (plat : Platform) (t : GoTime)
    (hsup : "UnixMicro" ∈ cfg.supportedFormats)
    (hlo64 : -9223372036854775808 ≤ t.nanos) (hhi64 : t.nanos ≤ 9223372036854775807) :
    formatTimeInternal cfg plat t "UnixMicro" = Except.ok (intDecString (goUnixMicro t))
      ∧ parseTimeInternal cfg plat (intDecString (goUnixMicro t)) "UnixMicro"
        = Except.ok ⟨goUnixMicro t * 1000, plat.localZone⟩ := by
  constructor
  · simp only [formatTimeInternal]
    rw [if_neg (by decide : ¬ ("UnixMicro" : String) = "")]
    rw [if_pos (IsFormatSupported_true hsup)]
    rw [if_neg (by decide : ¬ ("UnixMicro" : String) = "RFC3339")]
    rw [if_neg (by decide : ¬ ("UnixMicro" : String) = "RFC3339Nano")]
    rw [if_neg (by decide : ¬ ("UnixMicro" : String) = "Unix")]
    rw [if_neg (by decide : ¬ ("UnixMicro" : String) = "UnixMilli")]
    rw [if_pos (rfl : ("UnixMicro" : String) = "UnixMicro")]
  · simp only [parseTimeInternal]
    rw [if_neg (by decide : ¬ ("UnixMicro" : String) = "")]
    rw [if_neg (by decide : ¬ ("UnixMicro" : String) = "RFC3339")]
    rw [if_neg (by decide : ¬ ("UnixMicro" : String) = "RFC3339Nano")]
    rw [if_neg (by decide : ¬ ("UnixMicro" : String) = "Unix")]
    rw [if_neg (by decide : ¬ ("UnixMicro" : String) = "UnixMilli")]
    rw [if_pos (rfl : ("UnixMicro" : String) = "UnixMicro")]
    have hu : goUnixMicro t = t.nanos / 1000 := rfl
    rw [parseInt64_intDecString (goUnixMicro t) (by omega) (by omega)]
    rfl

theorem c2_case_unixnano (cfg : Config) (plat : Platform) (t : GoTime)
    (hsup : "UnixNano" ∈ cfg.supportedFormats)
    (hlo64 : -9223372036854775808 ≤ t.nanos) (hhi64 : t.nanos ≤ 9223372036854775807) :
    formatTimeInternal cfg plat t "UnixNano" = Except.ok (intDecString (goUnixNano t))
      ∧ parseTimeInternal cfg plat (intDecString (goUnixNano t)) "UnixNano"
        = Except.ok ⟨goUnixNano t, plat.localZone⟩ := by
  constructor
  · simp only [formatTimeInternal]
    rw [if_neg (by decide : ¬ ("UnixNano" : String) = "")]
    rw [if_pos (IsFormatSupported_true hsup)]
    rw [if_neg (by decide : ¬ ("UnixNano" : String) = "RFC3339")]
    rw [if_neg (by decide : ¬ ("UnixNano" : String) = "RFC3339Nano")]
    rw [if_neg (by decide : ¬ ("UnixNano" : String) = "Unix")]
    rw [if_neg (by decide : ¬ ("UnixNano" : String) = "UnixMilli")]
    rw [if_neg (by decide : ¬ ("UnixNano" : String) = "UnixMicro")]
    rw [if_pos (rfl : ("UnixNano" : String) = "UnixNano")]
  · simp only [parseTimeInternal]
    rw [if_neg (by decide : ¬ ("UnixNano" : String) = "")]
    rw [if_neg (by decide : ¬ ("UnixNano" : String) = "RFC3339")]
    rw [if_neg (by decide : ¬ ("UnixNano" : String) = "RFC3339Nano")]
    rw [if_neg (by decide : ¬ ("UnixNano" : String) = "Unix")]
    rw [if_neg (by decide : ¬ ("UnixNano" : String) = "UnixMilli")]
    rw [if_neg (by decide : ¬ ("UnixNano" : String) = "UnixMicro")]
    rw [if_pos (rfl : ("UnixNano" : String) = "UnixNano")]
    have hu : goUnixNano t = t.nanos := rfl
    rw [parseInt64_intDecString (goUnixNano t) (by omega) (by omega)]
    rfl

theorem goYear_bound (t : GoTime)
    (hlo64 : -9223372036854775808 ≤ t.nanos) (hhi64 : t.nanos ≤ 9223372036854775807)
    (hofflo : -86400 < offsetAt t.loc (unixSec t))
    (hoffhi : offsetAt t.loc (unixSec t) < 86400) :
    1 ≤ goYear t ∧ goYear t ≤ 9999 := by
  have hgy : goYear t = (civilFromDays (wallSec t / 86400)).1 := rfl
  have hwd : wallSec t = unixSec t + offsetAt t.loc (unixSec t) := rfl
  have hus : unixSec t = t.nanos / 1000000000 := rfl
  have hdb : -150000 ≤ wallSec t / 86400 ∧ wallSec t / 86400 ≤ 150000 := by omega
  have := civil_year_bound (wallSec t / 86400) hdb.1 hdb.2
  omega

theorem c2_case_rfc3339 (cfg : Config) (plat : Platform) (t : GoTime)
    (hsup : "RFC3339" ∈ cfg.supportedFormats)
    (hlo64 : -9223372036854775808 ≤ t.nanos) (hhi64 : t.nanos ≤ 9223372036854775807)
    (hoffmod : offsetAt t.loc (unixSec t) % 60 = 0)
    (hofflo : -86400 < offsetAt t.loc (unixSec t))
    (hoffhi : offsetAt t.loc (unixSec t) < 86400) :
    formatTimeInternal cfg plat t "RFC3339" = Except.ok (formatRFC3339 t)
      ∧ parseTimeInternal cfg plat (formatRFC3339 t) "RFC3339"
        = Except.ok ⟨unixSec t * 1000000000,
            if offsetAt t.loc (unixSec t) = 0 then utcZone
            else fixedZone (offsetAt t.loc (unixSec t))⟩ := by
  obtain ⟨hy1, hy2⟩ := goYear_bound t hlo64 hhi64 hofflo hoffhi
  constructor
  · simp only [formatTimeInternal]
    rw [if_neg (by decide : ¬ ("RFC3339" : String) = "")]
    rw [if_pos (IsFormatSupported_true hsup)]
    rw [if_pos (rfl : ("RFC3339" : String) = "RFC3339")]
  · simp only [parseTimeInternal]
    rw [if_neg (by decide : ¬ ("RFC3339" : String) = "")]
    rw [if_pos (rfl : ("RFC3339" : String) = "RFC3339")]
    rw [parseRFC3339_formatRFC3339 t hy1 hy2 hoffmod hofflo hoffhi]

theorem c2_case_rfc3339nano (cfg : Config) (plat : Platform) (t : GoTime)
    (hsup : "RFC3339Nano" ∈ cfg.supportedFormats)
    (hlo64 : -9223372036854775808 ≤ t.nanos) (hhi64 : t.nanos ≤ 9223372036854775807)
    (hoffmod : offsetAt t.loc (unixSec t) % 60 = 0)
    (hofflo : -86400 < offsetAt t.loc (unixSec t))
    (hoffhi : offsetAt t.loc (unixSec t) < 86400) :
    formatTimeInternal cfg plat t "RFC3339Nano" = Except.ok (formatRFC3339Nano t)
      ∧ parseTimeInternal cfg plat (formatRFC3339Nano t) "RFC3339Nano"
        = Except.ok ⟨t.nanos,
            if offsetAt t.loc (unixSec t) = 0 then utcZone
            else fixedZone (offsetAt t.loc (unixSec t))⟩ := by
  obtain ⟨hy1, hy2⟩ := goYear_bound t hlo64 hhi64 hofflo hoffhi
  constructor
  · simp only [formatTimeInternal]
    rw [if_neg (by decide : ¬ ("RFC3339Nano" : String) = "")]
    rw [if_pos (IsFormatSupported_true hsup)]
    rw [if_neg (by decide : ¬ ("RFC3339Nano" : String) = "RFC3339")]
    rw [if_pos (rfl : ("RFC3339Nano" : String) = "RFC3339Nano")]
  · simp only [parseTimeInternal]
    rw [if_neg (by decide : ¬ ("RFC3339Nano" : String) = "")]
    rw [if_neg (by decide : ¬ ("RFC3339Nano" : String) = "RFC3339")]
    rw [if_pos (rfl : ("RFC3339Nano" : String) = "RFC3339Nano")]
    rw [parseRFC3339_formatRFC3339Nano t hy1 hy2 hoffmod hofflo hoffhi]

/-- C2: for every format identifier `f` among the six unit-bearing
identifiers that is present in the configured `supportedFormats`, and
every instant `t` (within the 64-bit range that `strconv.ParseInt` and
Go's nanosecond representation require, in a zone whose offset at `t`
is a whole number of minutes smaller than a day), parsing the string
produced by formatting `t` with `f` using the same `f` recovers `t` up
to `f`'s unit granularity: one second for `Unix` and `RFC3339`, a
millisecond for `UnixMilli`, a microsecond for `UnixMicro`, and a
nanosecond (exact recovery) for `UnixNano` and `RFC3339Nano`. -/
theorem C2_parse_format_roundtrip (cfg : Config) (plat : Platform) (f : String) (t : GoTime)
    (hsup : f ∈ cfg.supportedFormats)
    (hsix : f = "Unix" ∨ f = "UnixMilli" ∨ f = "UnixMicro" ∨ f = "UnixNano"
      ∨ f = "RFC3339" ∨ f = "RFC3339Nano")
    (hlo64 : -9223372036854775808 ≤ t.nanos) (hhi64 : t.nanos ≤ 9223372036854775807)
    (hoffmod : offsetAt t.loc (unixSec t) % 60 = 0)
    (hofflo : -86400 < offsetAt t.loc (unixSec t))
    (hoffhi : offsetAt t.loc (unixSec t) < 86400) :
    ∃ s t', formatTimeInternal cfg plat t f = Except.ok s
      ∧ parseTimeInternal cfg plat s f = Except.ok t'
      ∧ t'.nanos = t.nanos / granOf f * granOf f := by
  have hus : unixSec t = t.nanos / 1000000000 := rfl
  rcases hsix with rfl | rfl | rfl | rfl | rfl | rfl
  · obtain ⟨h1, h2⟩ := c2_case_unix cfg plat t hsup hlo64 hhi64
    exact ⟨_, _, h1, h2, rfl⟩
  · obtain ⟨h1, h2⟩ := c2_case_unixmilli cfg plat t hsup hlo64 hhi64
    exact ⟨_, _, h1, h2, rfl⟩
  · obtain ⟨h1, h2⟩ := c2_case_unixmicro cfg plat t hsup hlo64 hhi64
    exact ⟨_, _, h1, h2, rfl⟩
  · obtain ⟨h1, h2⟩ := c2_case_unixnano cfg plat t hsup hlo64 hhi64
    refine ⟨_, _, h1, h2, ?_⟩
    show goUnixNano t = t.nanos / granOf "UnixNano" * granOf "UnixNano"
    have hg : granOf "UnixNano" = 1 := rfl
    have hn : goUnixNano t = t.nanos := rfl
    rw [hg, hn]
    omega
  · obtain ⟨h1, h2⟩ := c2_case_rfc3339 cfg plat t hsup hlo64 hhi64 hoffmod hofflo hoffhi
    exact ⟨_, _, h1, h2, rfl⟩
  · obtain ⟨h1, h2⟩ := c2_case_rfc3339nano cfg plat t hsup hlo64 hhi64 hoffmod hofflo hoffhi
    refine ⟨_, _, h1, h2, ?_⟩
    show t.nanos = t.nanos / granOf "RFC3339Nano" * granOf "RFC3339Nano"
    have hg : granOf "RFC3339Nano" = 1 := rfl
    rw [hg]
    omega

/-- Witness for C2 at a concrete configuration, platform, instant and
the `RFC3339` identifier. -/
theorem C2_parse_format_roundtrip_witness :
    ∃ s t',
      formatTimeInternal
          ⟨"UTC", "RFC3339", ["RFC3339", "RFC3339Nano", "Unix", "UnixMilli", "UnixMicro", "UnixNano"]⟩
          platTrivial ⟨1703518245123456789, utcZone⟩ "RFC3339" = Except.ok s
      ∧ parseTimeInternal
          ⟨"UTC", "RFC3339", ["RFC3339", "RFC3339Nano", "Unix", "UnixMilli", "UnixMicro", "UnixNano"]⟩
          platTrivial s "RFC3339" = Except.ok t'
      ∧ t'.nanos = (⟨1703518245123456789, utcZone⟩ : GoTime).nanos
          / granOf "RFC3339" * granOf "RFC3339" :=
  C2_parse_format_roundtrip _ platTrivial "RFC3339" ⟨1703518245123456789, utcZone⟩
    (by decide) (by decide) (by decide) (by decide) (by decide) (by decide) (by decide)

theorem IsFormatSupported_false {cfg : Config} {f : String}
    (h : f ∉ cfg.supportedFormats) : IsFormatSupported cfg f = false := by
  simp only [IsFormatSupported]
  simpa using h

/-- C3: with a non-empty identifier, `formatTimeInternal` fails exactly
when the identifier is missing from the configured `supportedFormats`
(recognized enum identifiers get no exemption), and then the error is
`UnsupportedFormat`; in particular, with `supportedFormats=["RFC3339"]`,
formatting the instant 2023-12-25T15:30:45Z with `"Unix"` fails with
`UnsupportedFormat` through the public `FormatTime`. -/
theorem C3_format_whitelist_gate (cfg : Config) (plat : Platform) (t : GoTime)
    (format : String) (hne : format ≠ "") :
    ((∃ e, formatTimeInternal cfg plat t format = Except.error e)
        ↔ format ∉ cfg.supportedFormats)
      ∧ (format ∉ cfg.supportedFormats →
          formatTimeInternal cfg plat t format
            = Except.error (TimeError.unsupportedFormat format cfg.supportedFormats))
      ∧ FormatTime ⟨"UTC", "RFC3339", ["RFC3339"]⟩ platTrivial
          ⟨TimestampValue.timeVal ⟨1703518245000000000, utcZone⟩, "Unix", ""⟩
        = Except.error (TimeError.unsupportedFormat "Unix" ["RFC3339"]) := by
  have herr : format ∉ cfg.supportedFormats →
      formatTimeInternal cfg plat t format
        = Except.error (TimeError.unsupportedFormat format cfg.supportedFormats) := by
    intro hmem
    have hs := IsFormatSupported_false hmem
    simp only [formatTimeInternal]
    rw [if_neg hne]
    rw [if_neg (by rw [hs]; exact Bool.false_ne_true)]
  refine ⟨⟨?_, fun hmem => ⟨_, herr hmem⟩⟩, herr, by decide⟩
  intro ⟨e, he⟩
  intro hmem
  have hs := IsFormatSupported_true hmem
  simp only [formatTimeInternal] at he
  rw [if_neg hne, if_pos hs] at he
  simp at he

/-- Witness for C3 at a concrete configuration and format. -/
theorem C3_format_whitelist_gate_witness :
    ((∃ e, formatTimeInternal ⟨"UTC", "RFC3339", ["RFC3339"]⟩ platTrivial
          ⟨1703518245000000000, utcZone⟩ "Unix" = Except.error e)
        ↔ "Unix" ∉ (⟨"UTC", "RFC3339", ["RFC3339"]⟩ : Config).supportedFormats)
      ∧ ("Unix" ∉ (⟨"UTC", "RFC3339", ["RFC3339"]⟩ : Config).supportedFormats →
          formatTimeInternal ⟨"UTC", "RFC3339", ["RFC3339"]⟩ platTrivial
            ⟨1703518245000000000, utcZone⟩ "Unix"
            = Except.error (TimeError.unsupportedFormat "Unix" ["RFC3339"]))
      ∧ FormatTime ⟨"UTC", "RFC3339", ["RFC3339"]⟩ platTrivial
          ⟨TimestampValue.timeVal ⟨1703518245000000000, utcZone⟩, "Unix", ""⟩
        = Except.error (TimeError.unsupportedFormat "Unix" ["RFC3339"]) :=
  C3_format_whitelist_gate ⟨"UTC", "RFC3339", ["RFC3339"]⟩ platTrivial
    ⟨1703518245000000000, utcZone⟩ "Unix" (by decide)

/-- C7: `formatOffset` renders every offset smaller than 100 hours in
magnitude as the sign followed by two zero-padded digit fields separated
by a colon, with zero rendered `"+00:00"` (never `"-00:00"`), matching
the specification-side rendering `offsetSpecRender`; the five
enumerated examples hold. -/
theorem C7_formatOffset_shape (o : Int) (hlo : -360000 < o) (hhi : o < 360000) :
    formatOffset o = offsetSpecRender o
      ∧ formatOffset 0 = "+00:00"
      ∧ formatOffset 3600 = "+01:00"
      ∧ formatOffset (-3600) = "-01:00"
      ∧ formatOffset 5400 = "+01:30"
      ∧ formatOffset (-43200) = "-12:00" := by
  refine ⟨?_, by decide, by decide, by decide, by decide, by decide⟩
  by_cases h0 : o = 0
  · rw [h0]
    decide
  · simp only [formatOffset, offsetSpecRender]
    rw [if_neg h0]
    have hhours : o.natAbs / 3600 < 100 := by omega
    have hmins : o.natAbs % 3600 / 60 < 100 := by omega
    rw [pad2min_eq hhours, pad2min_eq hmins]
    rfl

/-- Witness for C7 at offset 5400. -/
theorem C7_formatOffset_shape_witness :
    formatOffset 5400 = offsetSpecRender 5400
      ∧ formatOffset 0 = "+00:00"
      ∧ formatOffset 3600 = "+01:00"
      ∧ formatOffset (-3600) = "-01:00"
      ∧ formatOffset 5400 = "+01:30"
      ∧ formatOffset (-43200) = "-12:00" :=
  C7_formatOffset_shape 5400 (by decide) (by decide)

theorem except_bind_ok {ε α β : Type} (a : α) (f : α → Except ε β) :
    (Except.ok a >>= f : Except ε β) = f a := rfl

theorem except_bind_error {ε α β : Type} (e : ε) (f : α → Except ε β) :
    ((Except.error e : Except ε α) >>= f) = Except.error e := rfl

/-- C1 counterexample: converting the UTC-zoned epoch instant with
`fromTZ = "Etc/GMT-1"` succeeds but shifts unix-seconds by the source
offset (the wall-clock fields are reinterpreted), so unix-seconds is
not preserved for every resolvable pair. -/
theorem C1_convert_counterexample :
    ∃ t', ConvertTimezone platSample ⟨0, utcZone⟩ "Etc/GMT-1" "UTC" = Except.ok t'
      ∧ unixSec t' ≠ unixSec (⟨0, utcZone⟩ : GoTime) :=
  ⟨⟨-3600000000000, utcZone⟩, by decide, by decide⟩

/-- C1 (amended): whenever the source-reinterpretation branch is not
taken — `fromTZ` empty or the instant's zone not exactly the UTC
marker — `ConvertTimezone` succeeds for every resolvable destination
and preserves unix-seconds; only the zone metadata changes. -/
theorem C1_convert_preserves_unix (plat : Platform) (t : GoTime) (fromTZ toTZ : String)
    (toLoc : Zone) (hto : loadLocation plat toTZ = some toLoc)
    (hbranch : fromTZ = "" ∨ t.loc ≠ utcZone) :
    ConvertTimezone plat t fromTZ toTZ = Except.ok (goIn t toLoc)
      ∧ unixSec (goIn t toLoc) = unixSec t ∧ (goIn t toLoc).loc = toLoc := by
  refine ⟨?_, rfl, rfl⟩
  unfold ConvertTimezone
  rw [hto]
  dsimp only
  rw [if_neg ?_]
  intro hc
  rcases hbranch with h | h
  · exact hc.1 h
  · exact h hc.2

/-- Witness for the amended C1 at a concrete non-UTC-zoned instant. -/
theorem C1_convert_preserves_unix_witness :
    ConvertTimezone platSample ⟨0, plusOneZone⟩ "Bad/Zone" "UTC"
        = Except.ok (goIn ⟨0, plusOneZone⟩ utcZone)
      ∧ unixSec (goIn ⟨0, plusOneZone⟩ utcZone) = unixSec (⟨0, plusOneZone⟩ : GoTime)
      ∧ (goIn ⟨0, plusOneZone⟩ utcZone).loc = utcZone :=
  C1_convert_preserves_unix platSample ⟨0, plusOneZone⟩ "Bad/Zone" "UTC" utcZone
    (by decide) (Or.inr (by decide))

/-- C10: the source name of `ConvertTimezone` is consulted only when it
is non-empty and the instant's zone is exactly the UTC marker: for an
instant in any other zone the call succeeds and projects into the
destination no matter what `fromTZ` is (even unresolvable), likewise
when `fromTZ` is empty; only in the non-empty/UTC case does an
unresolvable source name produce an error. -/
theorem C10_convert_source_resolution (plat : Platform) (t : GoTime) (fromTZ toTZ : String)
    (toLoc : Zone) (hto : loadLocation plat toTZ = some toLoc) :
    (t.loc ≠ utcZone → ConvertTimezone plat t fromTZ toTZ = Except.ok (goIn t toLoc))
      ∧ (fromTZ = "" → ConvertTimezone plat t fromTZ toTZ = Except.ok (goIn t toLoc))
      ∧ (fromTZ ≠ "" → t.loc = utcZone → loadLocation plat fromTZ = none →
          ConvertTimezone plat t fromTZ toTZ
            = Except.error (TimeError.invalidSourceTimezone fromTZ)) := by
  refine ⟨?_, ?_, ?_⟩
  · intro hne
    unfold ConvertTimezone
    rw [hto]
    dsimp only
    rw [if_neg (fun hc => hne hc.2)]
  · intro hempty
    unfold ConvertTimezone
    rw [hto]
    dsimp only
    rw [if_neg (fun hc => hc.1 hempty)]
  · intro hne hutc hfrom
    unfold ConvertTimezone
    rw [hto]
    dsimp only
    rw [if_pos ⟨hne, hutc⟩, hfrom]

/-- Witness for C10 with an unresolvable source name and a non-UTC
instant. -/
theorem C10_convert_source_resolution_witness :
    ((⟨0, plusOneZone⟩ : GoTime).loc ≠ utcZone →
        ConvertTimezone platSample ⟨0, plusOneZone⟩ "Bad/Zone" "UTC"
          = Except.ok (goIn ⟨0, plusOneZone⟩ utcZone))
      ∧ ("Bad/Zone" = "" →
          ConvertTimezone platSample ⟨0, plusOneZone⟩ "Bad/Zone" "UTC"
            = Except.ok (goIn ⟨0, plusOneZone⟩ utcZone))
      ∧ ("Bad/Zone" ≠ "" → (⟨0, plusOneZone⟩ : GoTime).loc = utcZone →
          loadLocation platSample "Bad/Zone" = none →
          ConvertTimezone platSample ⟨0, plusOneZone⟩ "Bad/Zone" "UTC"
            = Except.error (TimeError.invalidSourceTimezone "Bad/Zone")) :=
  C10_convert_source_resolution platSample ⟨0, plusOneZone⟩ "Bad/Zone" "UTC" utcZone (by decide)

theorem formatTimeInternal_empty (cfg : Config) (plat : Platform) (t : GoTime) :
    formatTimeInternal cfg plat t "" = formatTimeInternal cfg plat t cfg.defaultFormat := by
  simp only [formatTimeInternal, if_true, ite_self]

/-- C9: the `Format` field of every successful `FormatTime` result is
the input format verbatim; the text for an empty format is produced
with the configured default format (so the field stays empty while the
text is default-formatted), whereas `GetCurrentTime` reports the
substituted default format in its result. -/
theorem C9_format_field_verbatim (cfg : Config) (plat : Platform) :
    (∀ input r, FormatTime cfg plat input = Except.ok r → r.format = input.format)
      ∧ (∀ t, formatTimeInternal cfg plat t "" = formatTimeInternal cfg plat t cfg.defaultFormat)
      ∧ (∀ now tz r, GetCurrentTime cfg plat now ⟨tz, ""⟩ = Except.ok r →
          r.format = cfg.defaultFormat) := by
  refine ⟨?_, formatTimeInternal_empty cfg plat, ?_⟩
  · intro input r h
    simp only [FormatTime] at h
    cases h1 : parseTimestampValue plat input.timestamp with
    | error e => rw [h1, except_bind_error] at h; simp at h
    | ok t1 =>
      rw [h1, except_bind_ok] at h
      cases h2 : formatTimeProject plat
          (if input.timezone = "" then cfg.defaultTimezone else input.timezone) t1 with
      | error e => rw [h2, except_bind_error] at h; simp at h
      | ok t2 =>
        rw [h2, except_bind_ok] at h
        cases h3 : formatTimeInternal cfg plat t2 input.format with
        | error e => rw [h3, except_bind_error] at h; simp at h
        | ok s =>
          rw [h3, except_bind_ok] at h
          simp only [Except.ok.injEq] at h
          rw [← h]
  · intro now tz r h
    simp only [GetCurrentTime, if_true] at h
    cases h1 : getCurrentTimeInternal cfg plat now
        (if tz = "" then cfg.defaultTimezone else tz) with
    | error e => rw [h1, except_bind_error] at h; simp at h
    | ok ct =>
      rw [h1, except_bind_ok] at h
      cases h2 : formatTimeInternal cfg plat ct cfg.defaultFormat with
      | error e => rw [h2, except_bind_error] at h; simp at h
      | ok s =>
        rw [h2, except_bind_ok] at h
        simp only [Except.ok.injEq] at h
        rw [← h]

/-- Witness for C9 at a concrete configuration, instant and format. -/
theorem C9_format_field_verbatim_witness :
    (∀ input r, FormatTime ⟨"UTC", "RFC3339", ["RFC3339"]⟩ platTrivial input = Except.ok r →
        r.format = input.format)
      ∧ (∀ t, formatTimeInternal ⟨"UTC", "RFC3339", ["RFC3339"]⟩ platTrivial t ""
          = formatTimeInternal ⟨"UTC", "RFC3339", ["RFC3339"]⟩ platTrivial t "RFC3339")
      ∧ (∀ now tz r,
          GetCurrentTime ⟨"UTC", "RFC3339", ["RFC3339"]⟩ platTrivial now ⟨tz, ""⟩ = Except.ok r →
          r.format = "RFC3339") :=
  C9_format_field_verbatim ⟨"UTC", "RFC3339", ["RFC3339"]⟩ platTrivial

/-- C5: for every resolvable zone and explicit reference instant,
`getTimezoneInfoInternal` reports `isDST = true` exactly when the
zone's offset at the reference is strictly greater than its offset six
calendar months after the reference in the same zone, and reports that
reference offset in `offsetSeconds`; consequently for `"UTC"` it
reports offsetSeconds 0, offset `"+00:00"` and `isDST = false` at every
reference instant. -/
theorem C5_dst_heuristic (cfg : Config) (plat : Platform) (now : GoTime) :
    (∀ ref tzName loc info, tzName ≠ "" → loadLocation plat tzName = some loc →
        getTimezoneInfoInternal cfg plat now tzName (some ref) = Except.ok info →
        (info.isDST = true ↔
            offsetAt loc (unixSec ref) > offsetAt loc (unixSec (addDate (goIn ref loc) 0 6 0)))
          ∧ info.offsetSeconds = offsetAt loc (unixSec ref))
      ∧ (∀ ref, ∃ u, getTimezoneInfoInternal cfg plat now "UTC" (some ref) = Except.ok u
          ∧ u.offsetSeconds = 0 ∧ u.offset = "+00:00" ∧ u.isDST = false) := by
  constructor
  · intro ref tzName loc info hne hloc hinfo
    simp only [getTimezoneInfoInternal] at hinfo
    rw [if_neg hne, hloc] at hinfo
    dsimp only at hinfo
    simp only [Except.ok.injEq] at hinfo
    rw [← hinfo]
    constructor
    · show isDST (goIn ref loc) loc = true ↔ _
      simp only [isDST]
      rw [decide_eq_true_iff]
      rfl
    · rfl
  · intro ref
    refine ⟨{
        name := "UTC",
        abbreviation := abbrAt utcZone (unixSec (goIn ref utcZone)),
        offset := formatOffset (offsetAt utcZone (unixSec (goIn ref utcZone))),
        offsetSeconds := offsetAt utcZone (unixSec (goIn ref utcZone)),
        isDST := isDST (goIn ref utcZone) utcZone,
        dstTransition := getNextDSTTransition (goIn ref utcZone) utcZone }, ?_, rfl, rfl, rfl⟩
    simp only [getTimezoneInfoInternal]
    rw [if_neg (by decide : ¬ ("UTC" : String) = "")]
    rw [show loadLocation plat "UTC" = some utcZone from by
      simp only [loadLocation]
      rw [if_pos (Or.inr trivial : "UTC" = "" ∨ True)]]
    rfl

/-- Witness for C5 at a concrete zone, reference and configuration. -/
theorem C5_dst_heuristic_witness :
    (∀ ref tzName loc info, tzName ≠ "" →
        loadLocation platSample tzName = some loc →
        getTimezoneInfoInternal ⟨"UTC", "RFC3339", ["RFC3339"]⟩ platSample
          ⟨0, utcZone⟩ tzName (some ref) = Except.ok info →
        (info.isDST = true ↔
            offsetAt loc (unixSec ref) > offsetAt loc (unixSec (addDate (goIn ref loc) 0 6 0)))
          ∧ info.offsetSeconds = offsetAt loc (unixSec ref))
      ∧ (∀ ref, ∃ u,
          getTimezoneInfoInternal ⟨"UTC", "RFC3339", ["RFC3339"]⟩ platSample
            ⟨0, utcZone⟩ "UTC" (some ref) = Except.ok u
          ∧ u.offsetSeconds = 0 ∧ u.offset = "+00:00" ∧ u.isDST = false) :=
  C5_dst_heuristic ⟨"UTC", "RFC3339", ["RFC3339"]⟩ platSample ⟨0, utcZone⟩

theorem nextTransLoop_none_iff (loc : Zone) (off0 : Int) :
    ∀ (n : Nat) (t : GoTime),
      (nextTransLoop loc off0 n t = none ↔
        ∀ k, 1 ≤ k → k ≤ n → offsetAt loc (unixSec (dayIter k t)) = off0) := by
  intro n
  induction n with
  | zero =>
    intro t
    simp only [nextTransLoop]
    constructor
    · intro _ k hk1 hk0
      omega
    · intro _
      trivial
  | succ n ih =>
    intro t
    simp only [nextTransLoop]
    by_cases hoff : offsetAt loc (unixSec (goIn (addDate t 0 0 1) loc)) ≠ off0
    · rw [if_pos hoff]
      constructor
      · intro h
        simp at h
      · intro hall
        exfalso
        have h1 := hall 1 (by omega) (by omega)
        exact hoff (by simpa [dayIter, goIn, unixSec] using h1)
    · rw [if_neg hoff]
      push_neg at hoff
      rw [ih (addDate t 0 0 1)]
      constructor
      · intro h k hk1 hkn
        match k, hk1 with
        | 1, _ => simpa [dayIter, goIn, unixSec] using hoff
        | (j + 2), _ =>
          have := h (j + 1) (by omega) (by omega)
          simpa [dayIter] using this
      · intro h k hk1 hkn
        have := h (k + 1) (by omega) (by omega)
        simpa [dayIter] using this

theorem nextTransLoop_some_iff (loc : Zone) (off0 : Int) :
    ∀ (n : Nat) (t : GoTime) (info : DSTTransitionInfo),
      (nextTransLoop loc off0 n t = some info ↔
        ∃ k, 1 ≤ k ∧ k ≤ n
          ∧ (∀ j, 1 ≤ j → j < k → offsetAt loc (unixSec (dayIter j t)) = off0)
          ∧ offsetAt loc (unixSec (dayIter k t)) ≠ off0
          ∧ info = ⟨goIn (dayIter k t) loc,
              if offsetAt loc (unixSec (dayIter k t)) < off0 then "exit_dst" else "enter_dst",
              offsetAt loc (unixSec (dayIter k t)) - off0⟩) := by
  intro n
  induction n with
  | zero =>
    intro t info
    simp only [nextTransLoop]
    constructor
    · intro h
      simp at h
    · rintro ⟨k, hk1, hk0, _⟩
      omega
  | succ n ih =>
    intro t info
    simp only [nextTransLoop]
    by_cases hoff : offsetAt loc (unixSec (goIn (addDate t 0 0 1) loc)) ≠ off0
    · rw [if_pos hoff]
      constructor
      · intro h
        simp only [Option.some.injEq] at h
        refine ⟨1, by omega, by omega, ?_, ?_, ?_⟩
        · intro j hj1 hj2
          omega
        · simpa [dayIter, goIn, unixSec] using hoff
        · rw [← h]
          rfl
      · rintro ⟨k, hk1, hkn, hprev, hchange, hinfo⟩
        have hk : k = 1 := by
          by_contra hne
          have h1 := hprev 1 (by omega) (by omega)
          exact hoff (by simpa [dayIter, goIn, unixSec] using h1)
        subst hk
        rw [hinfo]
        rfl
    · rw [if_neg hoff]
      push_neg at hoff
      rw [ih (addDate t 0 0 1) info]
      constructor
      · rintro ⟨k, hk1, hkn, hprev, hchange, hinfo⟩
        refine ⟨k + 1, by omega, by omega, ?_, ?_, ?_⟩
        · intro j hj1 hjk
          match j, hj1 with
          | 1, _ => simpa [dayIter, goIn, unixSec] using hoff
          | (i + 2), _ =>
            have := hprev (i + 1) (by omega) (by omega)
            simpa [dayIter] using this
        · simpa [dayIter] using hchange
        · rw [hinfo]
          rfl
      · rintro ⟨k, hk1, hkn, hprev, hchange, hinfo⟩
        obtain ⟨m, rfl⟩ : ∃ m, k = m + 1 := ⟨k - 1, by omega⟩
        have hm1 : 1 ≤ m := by
          by_contra h2
          have hm0 : m = 0 := by omega
          rw [hm0] at hchange
          exact hchange (by simpa [dayIter, goIn, unixSec] using hoff)
        refine ⟨m, hm1, by omega, ?_, ?_, ?_⟩
        · intro j hj1 hjm
          have := hprev (j + 1) (by omega) (by omega)
          simpa [dayIter] using this
        · simpa [dayIter] using hchange
        · rw [hinfo]
          rfl

/-- C6: starting at the reference instant (already in the searched
zone), the next-transition search steps one calendar day at a time for
at most 365 steps; it reports no transition (`none`, not an error)
exactly when all 365 stepped days keep the reference offset, and it
reports a transition exactly when some first day `k ≤ 365` changes the
offset, in which case the result carries that day's instant in the
zone, the classification `enter_dst` when the new offset is greater
than the old (`exit_dst` otherwise), and the signed offset delta. -/
theorem C6_transition_search (t : GoTime) (loc : Zone) (hloc : t.loc = loc) :
    (getNextDSTTransition t loc = none ↔
        ∀ k, 1 ≤ k → k ≤ 365 →
          offsetAt loc (unixSec (dayIter k t)) = offsetAt loc (unixSec t))
      ∧ (∀ info, getNextDSTTransition t loc = some info ↔
          ∃ k, 1 ≤ k ∧ k ≤ 365
            ∧ (∀ j, 1 ≤ j → j < k →
                offsetAt loc (unixSec (dayIter j t)) = offsetAt loc (unixSec t))
            ∧ offsetAt loc (unixSec (dayIter k t)) ≠ offsetAt loc (unixSec t)
            ∧ info.nextTransition = goIn (dayIter k t) loc
            ∧ info.transitionType =
                (if offsetAt loc (unixSec t) < offsetAt loc (unixSec (dayIter k t))
                 then "enter_dst" else "exit_dst")
            ∧ info.offsetChange =
                offsetAt loc (unixSec (dayIter k t)) - offsetAt loc (unixSec t)) := by
  have hoff0 : offsetAt t.loc (unixSec t) = offsetAt loc (unixSec t) := by rw [hloc]
  constructor
  · show nextTransLoop loc (offsetAt t.loc (unixSec t)) 365 t = none ↔ _
    rw [hoff0]
    exact nextTransLoop_none_iff loc (offsetAt loc (unixSec t)) 365 t
  · intro info
    show nextTransLoop loc (offsetAt t.loc (unixSec t)) 365 t = some info ↔ _
    rw [hoff0]
    rw [nextTransLoop_some_iff loc (offsetAt loc (unixSec t)) 365 t info]
    constructor
    · rintro ⟨k, hk1, hkn, hprev, hchange, hinfo⟩
      refine ⟨k, hk1, hkn, hprev, hchange, ?_, ?_, ?_⟩
      · rw [hinfo]
      · rw [hinfo]
        by_cases hlt : offsetAt loc (unixSec (dayIter k t)) < offsetAt loc (unixSec t)
        · rw [if_pos hlt, if_neg (by omega)]
        · rw [if_neg hlt, if_pos (by omega)]
      · rw [hinfo]
    · rintro ⟨k, hk1, hkn, hprev, hchange, hnt, hty, hch⟩
      refine ⟨k, hk1, hkn, hprev, hchange, ?_⟩
      cases info with
      | mk nt ty ch =>
        simp only at hnt hty hch
        rw [hnt, hty, hch]
        by_cases hlt : offsetAt loc (unixSec (dayIter k t)) < offsetAt loc (unixSec t)
        · rw [if_pos hlt, if_neg (by omega)]
        · rw [if_neg hlt, if_pos (by omega)]

/-- Witness for C6 at a concrete instant and zone. -/
theorem C6_transition_search_witness :
    (getNextDSTTransition ⟨1703518245000000000, nyZone⟩ nyZone = none ↔
        ∀ k, 1 ≤ k → k ≤ 365 →
          offsetAt nyZone (unixSec (dayIter k ⟨1703518245000000000, nyZone⟩))
            = offsetAt nyZone (unixSec (⟨1703518245000000000, nyZone⟩ : GoTime)))
      ∧ (∀ info, getNextDSTTransition ⟨1703518245000000000, nyZone⟩ nyZone = some info ↔
          ∃ k, 1 ≤ k ∧ k ≤ 365
            ∧ (∀ j, 1 ≤ j → j < k →
                offsetAt nyZone (unixSec (dayIter j ⟨1703518245000000000, nyZone⟩))
                  = offsetAt nyZone (unixSec (⟨1703518245000000000, nyZone⟩ : GoTime)))
            ∧ offsetAt nyZone (unixSec (dayIter k ⟨1703518245000000000, nyZone⟩))
                ≠ offsetAt nyZone (unixSec (⟨1703518245000000000, nyZone⟩ : GoTime))
            ∧ info.nextTransition = goIn (dayIter k ⟨1703518245000000000, nyZone⟩) nyZone
            ∧ info.transitionType =
                (if offsetAt nyZone (unixSec (⟨1703518245000000000, nyZone⟩ : GoTime))
                    < offsetAt nyZone (unixSec (dayIter k ⟨1703518245000000000, nyZone⟩))
                 then "enter_dst" else "exit_dst")
            ∧ info.offsetChange =
                offsetAt nyZone (unixSec (dayIter k ⟨1703518245000000000, nyZone⟩))
                  - offsetAt nyZone (unixSec (⟨1703518245000000000, nyZone⟩ : GoTime))) :=
  C6_transition_search ⟨1703518245000000000, nyZone⟩ nyZone rfl

theorem zoneLookup_no_transitions (z : Zone) (htr : z.transitions = []) (sec : Int) :
    zoneLookup z sec = ⟨z.baseAbbr, z.baseOffset, none, none⟩ := by
  unfold zoneLookup
  rw [htr]
  rfl

/-- Reinterpreting the wall-clock fields of a UTC-zoned instant in a
transition-free zone shifts the instant by exactly the zone's offset:
the wall clock is preserved, the absolute instant is not. -/
theorem goDate_reinterpret_fixed (pt : GoTime) (loc : Zone)
    (hutc : pt.loc = utcZone) (htr : loc.transitions = []) :
    unixSec (goDate (goYear pt) (goMonth pt) (goDay pt) (goHour pt) (goMinute pt)
      (goSecond pt) (goNanosecond pt) loc) = unixSec pt - loc.baseOffset := by
  have hwall : wallSec pt = unixSec pt := by
    show unixSec pt + offsetAt pt.loc (unixSec pt) = unixSec pt
    rw [hutc, offsetAt_utc]
    omega
  have hm1m2 := civil_month_range (wallSec pt / 86400)
  have hMrfl : goMonth pt = (civilFromDays (wallSec pt / 86400)).2.1 := rfl
  have hYrfl : goYear pt = (civilFromDays (wallSec pt / 86400)).1 := rfl
  have hDrfl : goDay pt = (civilFromDays (wallSec pt / 86400)).2.2 := rfl
  have hns1 : 0 ≤ goNanosecond pt := Int.emod_nonneg _ (by norm_num)
  have hns2 : goNanosecond pt < 1000000000 := Int.emod_lt_of_pos _ (by norm_num)
  simp only [goDate, zoneLookup_no_transitions loc htr]
  have hyN : goYear pt + (goMonth pt - 1) / 12 = goYear pt := by
    rw [hMrfl]
    omega
  have hmN : (goMonth pt - 1) % 12 + 1 = goMonth pt := by
    rw [hMrfl]
    omega
  rw [hyN, hmN, hYrfl, hMrfl, hDrfl, days_civil_days]
  have hcarry : goNanosecond pt / 1000000000 = 0 := by omega
  have hnsmod : goNanosecond pt % 1000000000 = goNanosecond pt := by omega
  rw [hcarry, hnsmod]
  have hHrfl : goHour pt = wallSec pt % 86400 / 3600 := rfl
  have hMIrfl : goMinute pt = wallSec pt % 86400 % 3600 / 60 := rfl
  have hSrfl : goSecond pt = wallSec pt % 86400 % 60 := rfl
  have hW : wallSec pt / 86400 * 86400 + goHour pt * 3600 + goMinute pt * 60 + goSecond pt + 0
      = unixSec pt := by
    rw [hHrfl, hMIrfl, hSrfl]
    omega
  rw [hW]
  by_cases hb : loc.baseOffset = 0
  · rw [if_pos hb, hb]
    show (unixSec pt * 1000000000 + goNanosecond pt) / 1000000000 = unixSec pt - 0
    omega
  · rw [if_neg hb]
    simp only [beforeStart, atOrAfterEnd, Bool.false_eq_true, if_false]
    show ((unixSec pt - loc.baseOffset) * 1000000000 + goNanosecond pt) / 1000000000
      = unixSec pt - loc.baseOffset
    omega

/-- C4: in `ParseTime` with a non-empty, resolvable timezone, a parsed
instant whose zone is exactly the UTC (zero-offset) marker is rebuilt
from its wall-clock fields in the supplied zone via `time.Date` — for a
transition-free zone this shifts unix-seconds by exactly the zone
offset, preserving the wall clock rather than the instant — while a
parsed instant in any other zone is projected unchanged: the result
keeps its unix-seconds and reports the supplied zone. -/
theorem C4_parse_timezone_branch (cfg : Config) (plat : Platform) (input : ParseTimeInput)
    (pt : GoTime) (loc : Zone)
    (htz : input.timezone ≠ "")
    (hloc : loadLocation plat input.timezone = some loc)
    (hparse : parseTimeInternal cfg plat input.timeString
        (if input.format = "" then cfg.defaultFormat else input.format) = Except.ok pt) :
    (pt.loc = utcZone →
        applyParseTimezone plat input.timezone pt
          = Except.ok (goDate (goYear pt) (goMonth pt) (goDay pt)
              (goHour pt) (goMinute pt) (goSecond pt) (goNanosecond pt) loc))
      ∧ (pt.loc = utcZone → loc.transitions = [] →
          ∀ t', applyParseTimezone plat input.timezone pt = Except.ok t' →
            unixSec t' = unixSec pt - loc.baseOffset)
      ∧ (pt.loc ≠ utcZone →
          applyParseTimezone plat input.timezone pt = Except.ok (goIn pt loc)
          ∧ ∃ r, ParseTime cfg plat input = Except.ok r
              ∧ r.unixTimestamp = unixSec pt ∧ r.timezone = loc.name) := by
  refine ⟨?_, ?_, ?_⟩
  · intro hutc
    unfold applyParseTimezone
    rw [if_pos htz, hloc]
    dsimp only
    rw [if_pos hutc]
  · intro hutc htrans t' ht'
    unfold applyParseTimezone at ht'
    rw [if_pos htz, hloc] at ht'
    dsimp only at ht'
    rw [if_pos hutc] at ht'
    simp only [Except.ok.injEq] at ht'
    rw [← ht']
    exact goDate_reinterpret_fixed pt loc hutc htrans
  · intro hne
    have hstep : applyParseTimezone plat input.timezone pt = Except.ok (goIn pt loc) := by
      unfold applyParseTimezone
      rw [if_pos htz, hloc]
      dsimp only
      rw [if_neg hne]
    refine ⟨hstep, ⟨{
        unixTimestamp := unixSec (goIn pt loc),
        rfc3339 := formatRFC3339 (goIn pt loc),
        timezone := (goIn pt loc).loc.name,
        isDST := isDST (goIn pt loc) (goIn pt loc).loc }, ?_, rfl, rfl⟩⟩
    simp only [ParseTime]
    rw [hparse, except_bind_ok, hstep, except_bind_ok]

/-- Witness for C4: a `UnixNano`-parsed instant carries the local zone
(not the UTC marker), so the projection branch applies. -/
theorem C4_parse_timezone_branch_witness :
    (((⟨1703518245000000000, utcZone⟩ : GoTime)).loc = utcZone →
        applyParseTimezone platSample "Etc/GMT-1" ⟨1703518245000000000, utcZone⟩
          = Except.ok (goDate (goYear ⟨1703518245000000000, utcZone⟩)
              (goMonth ⟨1703518245000000000, utcZone⟩) (goDay ⟨1703518245000000000, utcZone⟩)
              (goHour ⟨1703518245000000000, utcZone⟩) (goMinute ⟨1703518245000000000, utcZone⟩)
              (goSecond ⟨1703518245000000000, utcZone⟩)
              (goNanosecond ⟨1703518245000000000, utcZone⟩) plusOneZone))
      ∧ (((⟨1703518245000000000, utcZone⟩ : GoTime)).loc = utcZone →
          plusOneZone.transitions = [] →
          ∀ t', applyParseTimezone platSample "Etc/GMT-1" ⟨1703518245000000000, utcZone⟩
              = Except.ok t' →
            unixSec t' = unixSec (⟨1703518245000000000, utcZone⟩ : GoTime)
              - plusOneZone.baseOffset)
      ∧ (((⟨1703518245000000000, utcZone⟩ : GoTime)).loc ≠ utcZone →
          applyParseTimezone platSample "Etc/GMT-1" ⟨1703518245000000000, utcZone⟩
              = Except.ok (goIn ⟨1703518245000000000, utcZone⟩ plusOneZone)
          ∧ ∃ r, ParseTime ⟨"UTC", "RFC3339", ["RFC3339"]⟩ platSample
                ⟨"2023-12-25T15:30:45Z", "RFC3339", "Etc/GMT-1"⟩ = Except.ok r
              ∧ r.unixTimestamp = unixSec (⟨1703518245000000000, utcZone⟩ : GoTime)
              ∧ r.timezone = plusOneZone.name) :=
  C4_parse_timezone_branch ⟨"UTC", "RFC3339", ["RFC3339"]⟩ platSample
    ⟨"2023-12-25T15:30:45Z", "RFC3339", "Etc/GMT-1"⟩ ⟨1703518245000000000, utcZone⟩
    plusOneZone (by decide) (by decide) (by decide)

/-- C8 counterexample: `ConvertTimezone` takes timezone arguments, and
with a non-UTC-zoned instant a non-empty source name that does not
resolve produces no error — the call succeeds — contradicting the
claim that every non-empty unresolvable argument always fails. -/
theorem C8_failfast_counterexample :
    "Invalid/Zone" ≠ ""
      ∧ loadLocation platSample "Invalid/Zone" = none
      ∧ ConvertTimezone platSample ⟨0, plusOneZone⟩ "Invalid/Zone" "UTC"
          = Except.ok ⟨0, utcZone⟩ :=
  ⟨by decide, by decide, by decide⟩

theorem parseTimeInternal_empty (cfg : Config) (plat : Platform) (s : String) :
    parseTimeInternal cfg plat s "" = parseTimeInternal cfg plat s cfg.defaultFormat := by
  simp only [parseTimeInternal, if_true, ite_self]

/-- C8 (amended): empty-string arguments are substituted by the
configured defaults for `GetCurrentTime` (timezone and format),
`FormatTime` (timezone; and format via `formatTimeInternal`),
`ParseTime` (format via `parseTimeInternal`) and `GetTimezoneInfo`
(timezone), and for those same arguments a non-empty input that does
not resolve (or a format absent from `supportedFormats`) produces an
error rather than a silent fallback.  (`ConvertTimezone`'s source
timezone is exempt — see the counterexample — and `ParseTime`'s empty
timezone means "no projection", not the default.) -/
theorem C8_defaults_policy (cfg : Config) (plat : Platform) (now : GoTime) :
    (∀ f, GetCurrentTime cfg plat now ⟨"", f⟩
        = GetCurrentTime cfg plat now ⟨cfg.defaultTimezone, f⟩)
      ∧ (∀ tz, GetCurrentTime cfg plat now ⟨tz, ""⟩
          = GetCurrentTime cfg plat now ⟨tz, cfg.defaultFormat⟩)
      ∧ (∀ ts f, FormatTime cfg plat ⟨ts, f, ""⟩
          = FormatTime cfg plat ⟨ts, f, cfg.defaultTimezone⟩)
      ∧ (∀ t, formatTimeInternal cfg plat t ""
          = formatTimeInternal cfg plat t cfg.defaultFormat)
      ∧ (∀ s, parseTimeInternal cfg plat s ""
          = parseTimeInternal cfg plat s cfg.defaultFormat)
      ∧ (∀ ref, GetTimezoneInfo cfg plat now ⟨"", ref⟩
          = GetTimezoneInfo cfg plat now ⟨cfg.defaultTimezone, ref⟩)
      ∧ (∀ tz f, tz ≠ "" → loadLocation plat tz = none →
          GetCurrentTime cfg plat now ⟨tz, f⟩
            = Except.error (TimeError.invalidTimezone tz))
      ∧ (∀ t f, f ≠ "" → f ∉ cfg.supportedFormats →
          formatTimeInternal cfg plat t f
            = Except.error (TimeError.unsupportedFormat f cfg.supportedFormats))
      ∧ (∀ ts f tz t1, tz ≠ "" → loadLocation plat tz = none →
          parseTimestampValue plat ts = Except.ok t1 →
          FormatTime cfg plat ⟨ts, f, tz⟩
            = Except.error (TimeError.invalidTimezone tz))
      ∧ (∀ input pt, input.timezone ≠ "" → loadLocation plat input.timezone = none →
          parseTimeInternal cfg plat input.timeString
              (if input.format = "" then cfg.defaultFormat else input.format) = Except.ok pt →
          ParseTime cfg plat input
            = Except.error (TimeError.invalidTimezone input.timezone))
      ∧ (∀ tz ref, tz ≠ "" → loadLocation plat tz = none →
          GetTimezoneInfo cfg plat now ⟨tz, ref⟩
            = Except.error (TimeError.invalidTimezone tz)) := by
  refine ⟨?_, ?_, ?_, formatTimeInternal_empty cfg plat, parseTimeInternal_empty cfg plat,
    ?_, ?_, ?_, ?_, ?_, ?_⟩
  · intro f
    simp only [GetCurrentTime, if_true, ite_self]
  · intro tz
    simp only [GetCurrentTime, if_true, ite_self]
  · intro ts f
    simp only [FormatTime, if_true, ite_self]
  · intro ref
    simp only [GetTimezoneInfo, if_true, ite_self]
  · intro tz f htz hnone
    simp only [GetCurrentTime]
    rw [if_neg htz]
    have hint : getCurrentTimeInternal cfg plat now tz
        = Except.error (TimeError.invalidTimezone tz) := by
      simp only [getCurrentTimeInternal]
      rw [if_neg htz, hnone]
    rw [hint, except_bind_error]
  · intro t f hne hnotmem
    have hs := IsFormatSupported_false hnotmem
    simp only [formatTimeInternal]
    rw [if_neg hne]
    rw [if_neg (by rw [hs]; exact Bool.false_ne_true)]
  · intro ts f tz t1 htz hnone ht1
    simp only [FormatTime]
    rw [ht1, except_bind_ok]
    have hproj : formatTimeProject plat (if tz = "" then cfg.defaultTimezone else tz) t1
        = Except.error (TimeError.invalidTimezone tz) := by
      simp only [formatTimeProject]
      rw [if_neg htz]
      rw [if_pos htz, hnone]
    rw [hproj, except_bind_error]
  · intro input pt htz hnone hparse
    simp only [ParseTime]
    rw [hparse, except_bind_ok]
    have happ : applyParseTimezone plat input.timezone pt
        = Except.error (TimeError.invalidTimezone input.timezone) := by
      unfold applyParseTimezone
      rw [if_pos htz, hnone]
    rw [happ, except_bind_error]
  · intro tz ref htz hnone
    simp only [GetTimezoneInfo]
    rw [if_neg htz]
    simp only [getTimezoneInfoInternal]
    rw [if_neg htz, hnone]

/-- Witness for the amended C8 at a concrete configuration and
platform. -/
theorem C8_defaults_policy_witness :
    (∀ f, GetCurrentTime ⟨"UTC", "RFC3339", ["RFC3339"]⟩ platSample ⟨0, utcZone⟩ ⟨"", f⟩
        = GetCurrentTime ⟨"UTC", "RFC3339", ["RFC3339"]⟩ platSample ⟨0, utcZone⟩ ⟨"UTC", f⟩)
      ∧ (∀ tz, GetCurrentTime ⟨"UTC", "RFC3339", ["RFC3339"]⟩ platSample ⟨0, utcZone⟩ ⟨tz, ""⟩
          = GetCurrentTime ⟨"UTC", "RFC3339", ["RFC3339"]⟩ platSample ⟨0, utcZone⟩ ⟨tz, "RFC3339"⟩)
      ∧ (∀ ts f, FormatTime ⟨"UTC", "RFC3339", ["RFC3339"]⟩ platSample ⟨ts, f, ""⟩
          = FormatTime ⟨"UTC", "RFC3339", ["RFC3339"]⟩ platSample ⟨ts, f, "UTC"⟩)
      ∧ (∀ t, formatTimeInternal ⟨"UTC", "RFC3339", ["RFC3339"]⟩ platSample t ""
          = formatTimeInternal ⟨"UTC", "RFC3339", ["RFC3339"]⟩ platSample t "RFC3339")
      ∧ (∀ s, parseTimeInternal ⟨"UTC", "RFC3339", ["RFC3339"]⟩ platSample s ""
          = parseTimeInternal ⟨"UTC", "RFC3339", ["RFC3339"]⟩ platSample s "RFC3339")
      ∧ (∀ ref, GetTimezoneInfo ⟨"UTC", "RFC3339", ["RFC3339"]⟩ platSample ⟨0, utcZone⟩ ⟨"", ref⟩
          = GetTimezoneInfo ⟨"UTC", "RFC3339", ["RFC3339"]⟩ platSample ⟨0, utcZone⟩ ⟨"UTC", ref⟩)
      ∧ (∀ tz f, tz ≠ "" → loadLocation platSample tz = none →
          GetCurrentTime ⟨"UTC", "RFC3339", ["RFC3339"]⟩ platSample ⟨0, utcZone⟩ ⟨tz, f⟩
            = Except.error (TimeError.invalidTimezone tz))
      ∧ (∀ t f, f ≠ "" → f ∉ (⟨"UTC", "RFC3339", ["RFC3339"]⟩ : Config).supportedFormats →
          formatTimeInternal ⟨"UTC", "RFC3339", ["RFC3339"]⟩ platSample t f
            = Except.error (TimeError.unsupportedFormat f
                (⟨"UTC", "RFC3339", ["RFC3339"]⟩ : Config).supportedFormats))
      ∧ (∀ ts f tz t1, tz ≠ "" → loadLocation platSample tz = none →
          parseTimestampValue platSample ts = Except.ok t1 →
          FormatTime ⟨"UTC", "RFC3339", ["RFC3339"]⟩ platSample ⟨ts, f, tz⟩
            = Except.error (TimeError.invalidTimezone tz))
      ∧ (∀ input pt, input.timezone ≠ "" → loadLocation platSample input.timezone = none →
          parseTimeInternal ⟨"UTC", "RFC3339", ["RFC3339"]⟩ platSample input.timeString
              (if input.format = "" then "RFC3339" else input.format) = Except.ok pt →
          ParseTime ⟨"UTC", "RFC3339", ["RFC3339"]⟩ platSample input
            = Except.error (TimeError.invalidTimezone input.timezone))
      ∧ (∀ tz ref, tz ≠ "" → loadLocation platSample tz = none →
          GetTimezoneInfo ⟨"UTC", "RFC3339", ["RFC3339"]⟩ platSample ⟨0, utcZone⟩ ⟨tz, ref⟩
            = Except.error (TimeError.invalidTimezone tz)) :=
  C8_defaults_policy ⟨"UTC", "RFC3339", ["RFC3339"]⟩ platSample ⟨0, utcZone⟩

end MCPTime

